import Mathlib

/-!
Shallow embedding of the core pipeline of the Terminal_Analyzer_Back
repository (Go): the lexer (`internal/lexer`), the parser
(`internal/parser`), the spell checker (`internal/parser/spellchecker.go`),
the virtual filesystem state machine and the semantic/threat analyzer
(`internal/semantic`, first `Analyzer` variant in the file, the one whose
line numbers the specification refers to).

Modelling conventions:
- Go strings are modelled as `List Char`.  Go indexes strings by byte;
  for the ASCII inputs exercised here the two agree, and character class
  predicates (`unicode.IsLetter` etc.) are modelled by their ASCII
  behaviour.
- Go `map` sets become lists with set semantics; `map[string]string`
  becomes an association list with insert-overwrite, which preserves
  every lookup the code performs.
- Go `float64` confidence/similarity values become `ℚ` (the code only
  ever stores constants and single quotients, no float rounding paths
  are compared).
- Go regexp tables are `map`s, whose iteration order Go randomizes.
  The analyzer is therefore parametrised by the iteration order of each
  table (`AnalyzeOrdered`); `Analyze` fixes the source-listing order.
- loops are modelled by structural recursion, with an explicit fuel
  argument where the Go loop is bounded by the input length; the fuel
  used is provably sufficient (see `runLexer_completes`).
-/

namespace TerminalAnalyzer

/-- Abbreviation turning a string literal into the `List Char` the model works on. -/
def str (s : String) : List Char := s.toList

/-- The double-quote character. -/
def dquote : Char := Char.ofNat 34

/-- The single-quote character. -/
def squote : Char := Char.ofNat 39

/-- The backslash character. -/
def bslash : Char := Char.ofNat 92

/-! ## Tokens (internal/models/models.go) -/

inductive TokenType where
  | COMMAND | ARGUMENT | FLAG | PATH | URL | PIPE | REDIRECT | VARIABLE
  | STRING | NUMBER | OPERATOR | COMMENT | WHITESPACE | NEWLINE | EOF
deriving DecidableEq, Repr

structure Token where
  type : TokenType
  value : List Char
  position : Int
  line : Nat
deriving DecidableEq, Repr

structure LexicalError where
  message : String
  line : Nat
  position : Nat
deriving DecidableEq, Repr

/-! ## Lexer (internal/lexer, `src/unnamed/part_000`) -/

/-- `Lexer.isWhitespace`: space or tab. -/
def isSpaceTab (c : Char) : Bool := c = ' ' || c = '\t'

/-- `Lexer.isAlphaNumeric`: letters, digits, `/`, `~`. -/
def isAlphaNumericChar (c : Char) : Bool := c.isAlpha || c.isDigit || c = '/' || c = '~'

/-- Characters `consumeWord` keeps consuming: `isAlphaNumeric` plus `-`, `_`, `.`. -/
def isWordChar (c : Char) : Bool := isAlphaNumericChar c || c = '-' || c = '_' || c = '.'

/-- `Lexer.isOperator`: one of `;&()[]{}*?$`. -/
def isOperatorChar (c : Char) : Bool := (str ";&()[]{}*?$").contains c

/-- Go regexp `\s` character class: `[\t\n\f\r ]`. -/
def wsRe (c : Char) : Bool := c = '\t' || c = '\n' || c = Char.ofNat 12 || c = Char.ofNat 13 || c = ' '

/-- Go regexp `\w` character class: `[0-9A-Za-z_]`. -/
def wChar (c : Char) : Bool := c.isAlpha || c.isDigit || c = '_'

/-- Does `p` hold on some suffix of the list?  This is how an unanchored
Go `regexp.MatchString` is modelled: the pattern matcher `p` is tried at
every start position. -/
def anySuffix (p : List Char → Bool) : List Char → Bool
  | [] => p []
  | c :: rest => p (c :: rest) || anySuffix p rest

/-- Matcher for `urlPattern = https?://[^\s]+` at the current position. -/
def urlAt (l : List Char) : Bool :=
  (List.isPrefixOf (str "http://") l &&
    (match (l.drop 7).head? with | some d => !wsRe d | none => false)) ||
  (List.isPrefixOf (str "https://") l &&
    (match (l.drop 8).head? with | some d => !wsRe d | none => false))

/-- Matcher for `pathPattern = [~/][\w\-\./_]*` at the current position:
the starred class may be empty, so the pattern matches exactly where a
`~` or `/` stands. -/
def pathAt (l : List Char) : Bool :=
  match l.head? with
  | some c => c = '~' || c = '/'
  | none => false

/-- Matcher for `flagPattern = -{1,2}[\w\-]+` at the current position: a
dash followed by at least one `[\w\-]` character (a second dash is itself
in `[\w\-]`). -/
def flagAt : List Char → Bool
  | '-' :: d :: _ => wChar d || d = '-'
  | _ => false

/-- Matcher for `variablePattern = \$\{?[\w_]+\}?` at the current position. -/
def varAt : List Char → Bool
  | [] => false
  | c :: rest =>
    if c = '$' then
      match rest with
      | '{' :: r2 => (match r2.head? with | some d => wChar d | none => false)
      | _ => (match rest.head? with | some d => wChar d | none => false)
    else false

/-- `Lexer.classifyWord`: precedence URL > path > flag > variable > number
> command/argument.  `numberPattern = ^\d+$` is the only anchored pattern. -/
def classifyWord (w : List Char) (isCommand : Bool) : TokenType :=
  if anySuffix urlAt w then .URL
  else if anySuffix pathAt w then .PATH
  else if anySuffix flagAt w then .FLAG
  else if anySuffix varAt w then .VARIABLE
  else if !w.isEmpty && w.all Char.isDigit then .NUMBER
  else if isCommand then .COMMAND
  else .ARGUMENT

/-- Backward scan of `Lexer.isStartOfCommand`, expressed on the reversed
prefix of the input before the word: skip spaces/tabs, succeed on a
newline/`;`/`|`, fail on anything else (including running off the start,
mirroring the `return false` after the Go loop). -/
def isStartOfCommandAux : List Char → Bool
  | [] => false
  | c :: rest =>
    if c = '\n' || c = ';' || c = '|' then true
    else if c = ' ' || c = '\t' then isStartOfCommandAux rest
    else false

/-- `Lexer.isStartOfCommand(pos)` (the `pos == 0` special case is checked
by the caller, exactly as in `consumeWord`). -/
def isStartOfCommandFrom (input : List Char) (pos : Nat) : Bool :=
  isStartOfCommandAux ((input.take pos).reverse)

/-- The scanning loop of `consumeQuotedString` after the opening quote:
returns the number of characters strictly between the quotes (an escape
`\x` counts as two), or `none` if the closing quote is never reached. -/
def scanQuote (q : Char) : List Char → Option Nat
  | [] => none
  | [c] => if c = q then some 0 else none
  | c :: d :: rest =>
    if c = q then some 0
    else if c = bslash then (scanQuote q rest).map (· + 2)
    else (scanQuote q (d :: rest)).map (· + 1)

structure LexState where
  input : List Char
  pos : Nat
  line : Nat
  tokens : List Token
  errors : List LexicalError

/-- What one call of `Lexer.nextToken` appends and consumes. -/
structure LexDelta where
  consumed : Nat
  toks : List Token
  errs : List LexicalError
  newLine : Nat

def unrecognizedMsg (c : Char) : String := "Carácter no reconocido: " ++ String.mk [c]

/-- One dispatch step of `Lexer.nextToken`, branch for branch.  Token
`position` fields reproduce `addToken`'s `l.position - len(value)` with
`l.position` taken at the moment `addToken` runs in Go (before or after
the advance, depending on the branch). -/
def lexStep (s : LexState) : LexDelta :=
  match s.input.drop s.pos with
  | [] =>
    ⟨1, [], [⟨unrecognizedMsg (Char.ofNat 0), s.line, s.pos⟩], s.line⟩
  | c :: rest =>
    if c = ' ' || c = '\t' then
      let ws := (c :: rest).takeWhile isSpaceTab
      ⟨ws.length, [⟨.WHITESPACE, ws, (s.pos + ws.length : Int) - ws.length, s.line⟩], [], s.line⟩
    else if c = '\n' then
      ⟨1, [⟨.NEWLINE, ['\n'], (s.pos : Int) - 1, s.line⟩], [], s.line + 1⟩
    else if c = '#' then
      let cm := (c :: rest).takeWhile (fun d => !(d = '\n'))
      ⟨cm.length, [⟨.COMMENT, cm, (s.pos + cm.length : Int) - cm.length, s.line⟩], [], s.line⟩
    else if c = '|' then
      ⟨1, [⟨.PIPE, ['|'], (s.pos : Int) - 1, s.line⟩], [], s.line⟩
    else if c = '>' || c = '<' then
      let v := if c = '>' && rest.head? = some '>' then ['>', '>'] else [c]
      ⟨v.length, [⟨.REDIRECT, v, (s.pos + v.length : Int) - v.length, s.line⟩], [], s.line⟩
    else if c = dquote || c = squote then
      match scanQuote c rest with
      | none => ⟨s.input.length - s.pos, [], [⟨"String sin cerrar", s.line, s.input.length⟩], s.line⟩
      | some n =>
        let v := (c :: rest).take (n + 2)
        ⟨n + 2, [⟨.STRING, v, (s.pos + (n + 2) : Int) - v.length, s.line⟩], [], s.line⟩
    else if isAlphaNumericChar c then
      let w := (c :: rest).takeWhile isWordChar
      let isCmd := s.pos = 0 || isStartOfCommandFrom s.input s.pos
      ⟨w.length, [⟨classifyWord w isCmd, w, (s.pos + w.length : Int) - w.length, s.line⟩], [], s.line⟩
    else if isOperatorChar c then
      ⟨1, [⟨.OPERATOR, [c], (s.pos : Int) - 1, s.line⟩], [], s.line⟩
    else
      ⟨1, [], [⟨unrecognizedMsg c, s.line, s.pos⟩], s.line⟩

/-- `Lexer.nextToken`: apply one step's effects to the lexer state. -/
def nextToken (s : LexState) : LexState :=
  let d := lexStep s
  ⟨s.input, s.pos + d.consumed, d.newLine, s.tokens ++ d.toks, s.errors ++ d.errs⟩

/-- The scanning loop of `Lexer.Tokenize`, with explicit fuel
(`runLexer_completes` below shows `input.length + 1` fuel reaches the
end of input, so the loop terminates, bounded by the input length). -/
def runLexer : Nat → LexState → LexState
  | 0, s => s
  | fuel + 1, s => if s.pos < s.input.length then runLexer fuel (nextToken s) else s

def lexInit (input : List Char) : LexState := ⟨input, 0, 1, [], []⟩

/-- `Lexer.Tokenize`: run the loop, then append the single EOF token. -/
def Tokenize (input : List Char) : List Token × List LexicalError :=
  let f := runLexer (input.length + 1) (lexInit input)
  (f.tokens ++ [⟨.EOF, [], (f.pos : Int) - 0, f.line⟩], f.errors)

/-- Concatenation of the `Value` fields of a token list. -/
def concatValues (toks : List Token) : List Char := (toks.map Token.value).flatten

/-! ## Parser (internal/parser/parser.go) -/

structure Redirect where
  type : List Char
  target : List Char

structure CommandAST where
  command : List Char
  arguments : List (List Char)
  flags : List (List Char × List Char)
  pipes : List CommandAST
  redirects : List Redirect
  line : Nat
  raw : List Char

structure SyntaxError where
  message : String
  line : Nat
  command : List Char
deriving DecidableEq, Repr

structure ParserState where
  commands : List CommandAST
  errors : List SyntaxError
  warnings : List (List Char)

/-- Association-list rendering of Go's `map[string]string` assignment
`m[k] = v`: overwrite if present, append otherwise. -/
def mapSet (m : List (List Char × List Char)) (k v : List Char) : List (List Char × List Char) :=
  if (m.find? (fun p => p.1 == k)).isSome then
    m.map (fun p => if p.1 == k then (k, v) else p)
  else m ++ [(k, v)]

/-- Go's `m[k]` two-valued lookup on the flag map. -/
def mapGet? (m : List (List Char × List Char)) (k : List Char) : Option (List Char) :=
  (m.find? (fun p => p.1 == k)).map (·.2)

/-- `hasFlag` (internal/semantic): key present in the flag map. -/
def hasFlag (cmd : CommandAST) (flag : List Char) : Bool := (mapGet? cmd.flags flag).isSome

/-- `filterTokens`: drop whitespace and comments before parsing. -/
def filterTokens (tokens : List Token) : List Token :=
  tokens.filter (fun t => !(t.type = .WHITESPACE) && !(t.type = .COMMENT))

/-- `strings.Join(parts, " ")`. -/
def joinSpace : List (List Char) → List Char
  | [] => []
  | [x] => x
  | x :: y :: rest => x ++ ' ' :: joinSpace (y :: rest)

/-- The token-collection loop at the top of `parseCommand`: statement
tokens up to (excluding) a newline/EOF (left in the stream) or a `;`
operator (consumed). -/
def collectStmt : List Token → List Token × List Token
  | [] => ([], [])
  | t :: rest =>
    if t.type = .NEWLINE || t.type = .EOF then ([], t :: rest)
    else if t.type = .OPERATOR && t.value = [';'] then ([], rest)
    else
      let (s, r) := collectStmt rest
      (t :: s, r)

def emptyCommand (name : List Char) (line : Nat) (raw : List Char) : CommandAST :=
  ⟨name, [], [], [], [], line, raw⟩

/-- Does `parseFlag` treat the next token as the flag's value?
(argument/string/number/path). -/
def isFlagValueType (t : Token) : Bool :=
  t.type = .ARGUMENT || t.type = .STRING || t.type = .NUMBER || t.type = .PATH

/-- `strings.TrimLeft(value, "-")` used by `parseFlag` for the flag name. -/
def trimDashes (l : List Char) : List Char := l.dropWhile (· = '-')

/-- The argument/flag/redirect loop of `parseCommand` (the non-piped
variant, which warns on variables and unexpected tokens), with fuel
(each iteration consumes at least one token, so `toks.length + 1` fuel
always suffices).  The `FLAG` case inlines `parseFlag` (consume the next
token as the flag's value when it is an argument/string/number/path,
else record the `"true"` sentinel and reprocess the next token), the
`REDIRECT` case inlines `parseRedirect`. -/
def parseItemsFuel : Nat → CommandAST → ParserState → List Token → CommandAST × ParserState
  | 0, cmd, st, _ => (cmd, st)
  | _ + 1, cmd, st, [] => (cmd, st)
  | fuel + 1, cmd, st, t :: rest =>
    match t.type with
    | .FLAG =>
      (match rest with
       | n :: rest2 =>
         if isFlagValueType n then
           parseItemsFuel fuel { cmd with flags := mapSet cmd.flags (trimDashes t.value) n.value }
             st rest2
         else
           parseItemsFuel fuel
             { cmd with flags := mapSet cmd.flags (trimDashes t.value) (str "true") } st (n :: rest2)
       | [] =>
         ({ cmd with flags := mapSet cmd.flags (trimDashes t.value) (str "true") }, st))
    | .REDIRECT =>
      (match rest with
       | n :: rest2 =>
         parseItemsFuel fuel { cmd with redirects := cmd.redirects ++ [⟨t.value, n.value⟩] } st rest2
       | [] =>
         (cmd, { st with errors := st.errors ++ [⟨"Redirección sin target", cmd.line, cmd.raw⟩] }))
    | .ARGUMENT | .PATH | .URL | .STRING | .NUMBER =>
      parseItemsFuel fuel { cmd with arguments := cmd.arguments ++ [t.value] } st rest
    | .VARIABLE =>
      parseItemsFuel fuel { cmd with arguments := cmd.arguments ++ [t.value] }
        { st with warnings := st.warnings ++ [str "Variable detectada: " ++ t.value] } rest
    | _ =>
      parseItemsFuel fuel cmd
        { st with warnings := st.warnings ++ [str "Token inesperado: " ++ t.value] } rest

def parseItems (cmd : CommandAST) (st : ParserState) (toks : List Token) :
    CommandAST × ParserState :=
  parseItemsFuel (toks.length + 1) cmd st toks

/-- The loop body of `parseSimpleCommand` (pipe segments), with fuel:
same flag and redirect handling, variables go to the arguments without a
warning, and other token kinds are silently ignored. -/
def parseSimpleItemsFuel : Nat → CommandAST → ParserState → List Token → CommandAST × ParserState
  | 0, cmd, st, _ => (cmd, st)
  | _ + 1, cmd, st, [] => (cmd, st)
  | fuel + 1, cmd, st, t :: rest =>
    match t.type with
    | .FLAG =>
      (match rest with
       | n :: rest2 =>
         if isFlagValueType n then
           parseSimpleItemsFuel fuel
             { cmd with flags := mapSet cmd.flags (trimDashes t.value) n.value } st rest2
         else
           parseSimpleItemsFuel fuel
             { cmd with flags := mapSet cmd.flags (trimDashes t.value) (str "true") } st (n :: rest2)
       | [] =>
         ({ cmd with flags := mapSet cmd.flags (trimDashes t.value) (str "true") }, st))
    | .REDIRECT =>
      (match rest with
       | n :: rest2 =>
         parseSimpleItemsFuel fuel { cmd with redirects := cmd.redirects ++ [⟨t.value, n.value⟩] }
           st rest2
       | [] =>
         (cmd, { st with errors := st.errors ++ [⟨"Redirección sin target", cmd.line, cmd.raw⟩] }))
    | .ARGUMENT | .PATH | .URL | .STRING | .NUMBER | .VARIABLE =>
      parseSimpleItemsFuel fuel { cmd with arguments := cmd.arguments ++ [t.value] } st rest
    | _ => parseSimpleItemsFuel fuel cmd st rest

def parseSimpleItems (cmd : CommandAST) (st : ParserState) (toks : List Token) :
    CommandAST × ParserState :=
  parseSimpleItemsFuel (toks.length + 1) cmd st toks

/-- `parseSimpleCommand`: `nil` unless the segment starts with a command token. -/
def parseSimpleCommand (tokens : List Token) (line : Nat) (st : ParserState) :
    Option CommandAST × ParserState :=
  match tokens with
  | [] => (none, st)
  | t :: rest =>
    if t.type = .COMMAND then
      let (cmd, st') := parseSimpleItems (emptyCommand t.value line []) st rest
      (some cmd, st')
    else (none, st)

/-- The pipe-splitting loop of `parsePipedCommand`, with fuel (each
step removes at least one token, so `l.length + 1` fuel always
suffices): groups of tokens between `|` tokens (maximal runs of
non-pipe tokens), empty groups dropped, exactly as the Go flush-on-pipe
loop produces them. -/
def splitPipesFuel : Nat → List Token → List (List Token)
  | 0, _ => []
  | _ + 1, [] => []
  | fuel + 1, t :: rest =>
    if t.type = .PIPE then splitPipesFuel fuel rest
    else
      (t :: rest.takeWhile (fun tk => !(tk.type = .PIPE))) ::
        splitPipesFuel fuel ((rest.dropWhile (fun tk => !(tk.type = .PIPE))).drop 1)

def splitPipes (l : List Token) : List (List Token) := splitPipesFuel (l.length + 1) l

/-- `parsePipedCommand`: parse the first group as the main command (its
`Raw` is the whole statement), the remaining groups are linked into
`Pipes` (their `Raw` stays empty). -/
def parsePipedCommand (tokens : List Token) (line : Nat) (raw : List Char) (st : ParserState) :
    Option CommandAST × ParserState :=
  match splitPipes tokens with
  | [] => (none, st)
  | g :: gs =>
    match parseSimpleCommand g line st with
    | (none, st') => (none, st')
    | (some mainCmd, st') =>
      let (pipes, st'') := gs.foldl
        (fun (acc : List CommandAST × ParserState) grp =>
          match parseSimpleCommand grp line acc.2 with
          | (some c, st2) => (acc.1 ++ [c], st2)
          | (none, st2) => (acc.1, st2))
        ([], st')
      (some { mainCmd with raw := raw, pipes := pipes }, st'')

/-- `parseCommand` on one collected statement. -/
def parseStatement (stmt : List Token) (st : ParserState) : ParserState :=
  match stmt with
  | [] => st
  | t0 :: rest =>
    let raw := joinSpace (stmt.map Token.value)
    let startLine := t0.line
    if !(t0.type = .COMMAND) then
      { st with errors := st.errors ++ [⟨"Se esperaba un comando", startLine, raw⟩] }
    else if stmt.any (fun t => t.type = .PIPE) then
      match parsePipedCommand stmt startLine raw st with
      | (some cmd, st') => { st' with commands := st'.commands ++ [cmd] }
      | (none, st') => st'
    else
      let (cmd, st') := parseItems (emptyCommand t0.value startLine raw) st rest
      { st' with commands := st'.commands ++ [cmd] }

/-- The statement loop of `Parser.Parse`, with fuel (each iteration
consumes at least one token). -/
def parseLoop : Nat → List Token → ParserState → ParserState
  | 0, _, st => st
  | fuel + 1, toks, st =>
    match toks with
    | [] => st
    | t :: rest =>
      if t.type = .NEWLINE || t.type = .EOF then parseLoop fuel rest st
      else
        let (stmt, rest') := collectStmt (t :: rest)
        parseLoop fuel rest' (parseStatement stmt st)

/-- `Parser.Parse` composed with `NewParser`'s token filtering. -/
def Parse (tokens : List Token) : List CommandAST × List SyntaxError × List (List Char) :=
  let filtered := filterTokens tokens
  let st := parseLoop (filtered.length + 1) filtered ⟨[], [], []⟩
  (st.commands, st.errors, st.warnings)

/-- The lexer+parser front half of the pipeline, as the HTTP handler
wires it: `Parse(Tokenize(input))`, command list component. -/
def pipelineCommands (input : List Char) : List CommandAST :=
  (Parse (Tokenize input).1).1

/-! ## Path cleaning (Go `path/filepath` on a Unix separator) -/

/-- Split a path at every `/`. -/
def splitSlash : List Char → List (List Char)
  | [] => [[]]
  | c :: rest =>
    if c = '/' then [] :: splitSlash rest
    else
      match splitSlash rest with
      | s :: t => (c :: s) :: t
      | [] => [[c]]

/-- Join path segments with `/`. -/
def joinSlash : List (List Char) → List Char
  | [] => []
  | [s] => s
  | s :: t :: rest => s ++ '/' :: joinSlash (t :: rest)

/-- The element stack of `filepath.Clean`'s lexical processing: empty
and `.` segments are skipped, `..` pops a non-`..` entry, is dropped at
the root of a rooted path, and is kept otherwise.  The stack is built
head-first (most recent first). -/
def cleanSegs (rooted : Bool) : List (List Char) → List (List Char) → List (List Char)
  | [], stack => stack
  | s :: rest, stack =>
    if s = [] || s = str "." then cleanSegs rooted rest stack
    else if s = str ".." then
      match stack with
      | t :: ts =>
        if t = str ".." then cleanSegs rooted rest (s :: t :: ts)
        else cleanSegs rooted rest ts
      | [] => if rooted then cleanSegs rooted rest [] else cleanSegs rooted rest [s]
    else cleanSegs rooted rest (s :: stack)

/-- `filepath.Clean` (Unix): purely lexical cleanup — collapse repeated
separators, drop `.` elements, resolve `..` where possible; `""`
cleans to `"."`, a rooted path stays rooted. -/
def goClean (p : List Char) : List Char :=
  if p = [] then str "."
  else
    let rooted := p.head? = some '/'
    let stack := (cleanSegs rooted (splitSlash p) []).reverse
    if rooted then '/' :: joinSlash stack
    else if stack = [] then str "." else joinSlash stack

/-- The prefix of a path up to and including its last `/` (Go
`filepath.Split`'s directory part); `[]` when there is no separator. -/
def upToLastSlash : List Char → List Char
  | [] => []
  | c :: rest =>
    match upToLastSlash rest with
    | [] => if c = '/' then ['/'] else []
    | r => c :: r

/-- `filepath.Dir`: `Clean` of everything up to the last separator. -/
def goDir (p : List Char) : List Char := goClean (upToLastSlash p)

/-! ## Virtual filesystem state machine (internal/semantic/filesystem_tracker.go) -/

structure MissingDependency where
  type : List Char
  name : List Char
  required : List Char
deriving DecidableEq, Repr

structure FileSystemError where
  type : List Char
  command : List Char
  line : Nat
  path : List Char
  description : List Char
  suggestion : List Char
  missingDependency : Option MissingDependency
deriving DecidableEq, Repr

structure FileSystemState where
  currentDirectory : List Char
  directories : List (List Char)
  files : List (List Char)
  initialDirs : List (List Char)

/-- The `defaultDirs` seed of `NewFileSystemState`. -/
def defaultDirs : List (List Char) :=
  [str "/", str "/home", str "/home/user", str "/tmp", str "/var", str "/usr", str "/bin",
   str "/etc", str "/home/user/Documents", str "/home/user/Downloads", str "/home/user/Desktop",
   str "/home/user/Pictures", str "/home/user/Music", str "/home/user/Videos",
   str ".", str "..", str "~"]

/-- `NewFileSystemState`: current directory `/home/user`, directory set
and builtin set both seeded with `defaultDirs`, no files. -/
def NewFileSystemState : FileSystemState :=
  ⟨str "/home/user", defaultDirs, [], defaultDirs⟩

/-- Set membership of the Go `map[string]bool` sets. -/
def memPath (p : List Char) (s : List (List Char)) : Bool := s.contains p

/-- Insertion into a Go `map[string]bool` set. -/
def insertPath (p : List Char) (s : List (List Char)) : List (List Char) :=
  if s.contains p then s else s ++ [p]

/-- `delete` from a Go `map[string]bool` set. -/
def removePath (p : List Char) (s : List (List Char)) : List (List Char) :=
  s.filter (fun q => !(q == p))

/-- `FileSystemState.resolvePath`: absolute paths are cleaned, `~` and
`~/…` resolve against the home directory, `.`/`..` against the current
directory, anything else relative to the current directory. -/
def resolvePath (fs : FileSystemState) (path : List Char) : List Char :=
  if path.head? = some '/' then goClean path
  else if path = str "~" then str "/home/user"
  else if List.isPrefixOf (str "~/") path then goClean (str "/home/user/" ++ path.drop 2)
  else if path = str "." then fs.currentDirectory
  else if path = str ".." then goDir fs.currentDirectory
  else goClean (fs.currentDirectory ++ '/' :: path)

def missingArgError (cmd : CommandAST) (descr sugg : String) : FileSystemError :=
  ⟨str "missing_argument", cmd.raw, cmd.line, [], str descr, str sugg, none⟩

/-- `processMkdir`. -/
def processMkdir (cmd : CommandAST) (fs : FileSystemState) :
    FileSystemState × List FileSystemError :=
  if cmd.arguments.isEmpty then
    (fs, [missingArgError cmd "mkdir requiere al menos un nombre de directorio"
            "Especifique el nombre del directorio a crear: mkdir nombre_directorio"])
  else
    cmd.arguments.foldl
      (fun (acc : FileSystemState × List FileSystemError) arg =>
        let (fs, errs) := acc
        let absolutePath := resolvePath fs arg
        if memPath absolutePath fs.directories then
          (fs, errs ++ [⟨str "directory_exists", cmd.raw, cmd.line, absolutePath,
            str "El directorio '" ++ arg ++ str "' ya existe",
            str "Use un nombre diferente o verifique si realmente necesita crear este directorio",
            none⟩])
        else
          ({ fs with directories := insertPath absolutePath fs.directories }, errs))
      (fs, [])

/-- `processCD`. -/
def processCD (cmd : CommandAST) (fs : FileSystemState) :
    FileSystemState × List FileSystemError :=
  let targetDir := match cmd.arguments with
    | [] => str "/home/user"
    | t :: _ => t
  let absolutePath := resolvePath fs targetDir
  if !(memPath absolutePath fs.directories) then
    (fs, [⟨str "directory_not_found", cmd.raw, cmd.line, absolutePath,
      str "No se puede cambiar al directorio '" ++ targetDir ++ str "': directorio no encontrado",
      str "Primero cree el directorio con: mkdir " ++ targetDir,
      some ⟨str "directory", targetDir, str "mkdir " ++ targetDir⟩⟩])
  else
    ({ fs with currentDirectory := absolutePath }, [])

/-- `processRmdir`. -/
def processRmdir (cmd : CommandAST) (fs : FileSystemState) :
    FileSystemState × List FileSystemError :=
  if cmd.arguments.isEmpty then
    (fs, [missingArgError cmd "rmdir requiere al menos un nombre de directorio"
            "Especifique el nombre del directorio a eliminar: rmdir nombre_directorio"])
  else
    cmd.arguments.foldl
      (fun (acc : FileSystemState × List FileSystemError) arg =>
        let (fs, errs) := acc
        let absolutePath := resolvePath fs arg
        if !(memPath absolutePath fs.directories) then
          (fs, errs ++ [⟨str "directory_not_found", cmd.raw, cmd.line, absolutePath,
            str "No se puede eliminar el directorio '" ++ arg ++ str "': directorio no encontrado",
            str "Verifique que el directorio exista antes de intentar eliminarlo", none⟩])
        else if memPath absolutePath fs.initialDirs then
          (fs, errs ++ [⟨str "system_directory", cmd.raw, cmd.line, absolutePath,
            str "Intento de eliminar directorio del sistema: " ++ arg,
            str "Evite eliminar directorios críticos del sistema", none⟩])
        else
          ({ fs with directories := removePath absolutePath fs.directories }, errs))
      (fs, [])

/-- `processTouch`. -/
def processTouch (cmd : CommandAST) (fs : FileSystemState) :
    FileSystemState × List FileSystemError :=
  if cmd.arguments.isEmpty then
    (fs, [missingArgError cmd "touch requiere al menos un nombre de archivo"
            "Especifique el nombre del archivo: touch nombre_archivo"])
  else
    cmd.arguments.foldl
      (fun (acc : FileSystemState × List FileSystemError) arg =>
        let (fs, errs) := acc
        let absolutePath := resolvePath fs arg
        let parentDir := goDir absolutePath
        if !(memPath parentDir fs.directories) then
          (fs, errs ++ [⟨str "parent_directory_not_found", cmd.raw, cmd.line, parentDir,
            str "No se puede crear el archivo '" ++ arg ++ str "': el directorio padre no existe",
            str "Primero cree el directorio padre con: mkdir " ++ goDir arg,
            some ⟨str "directory", goDir arg, str "mkdir " ++ goDir arg⟩⟩])
        else
          ({ fs with files := insertPath absolutePath fs.files }, errs))
      (fs, [])

/-- `processRm`: the recursive flag is any of `r`, `rf`, `R` having a
non-empty value in the flag map. -/
def processRm (cmd : CommandAST) (fs : FileSystemState) :
    FileSystemState × List FileSystemError :=
  if cmd.arguments.isEmpty then
    (fs, [missingArgError cmd "rm requiere al menos un nombre de archivo"
            "Especifique el archivo a eliminar: rm nombre_archivo"])
  else
    let isRecursive := !((mapGet? cmd.flags (str "r")).getD [] == ([] : List Char)) ||
      !((mapGet? cmd.flags (str "rf")).getD [] == ([] : List Char)) ||
      !((mapGet? cmd.flags (str "R")).getD [] == ([] : List Char))
    cmd.arguments.foldl
      (fun (acc : FileSystemState × List FileSystemError) arg =>
        let (fs, errs) := acc
        let absolutePath := resolvePath fs arg
        if memPath absolutePath fs.directories && !isRecursive then
          (fs, errs ++ [⟨str "directory_without_recursive", cmd.raw, cmd.line, absolutePath,
            str "No se puede eliminar '" ++ arg ++ str "': es un directorio",
            str "Use rm -r para eliminar directorios o rmdir para directorios vacíos", none⟩])
        else if !(memPath absolutePath fs.files) && !(memPath absolutePath fs.directories) then
          (fs, errs ++ [⟨str "file_not_found", cmd.raw, cmd.line, absolutePath,
            str "No se puede eliminar '" ++ arg ++ str "': archivo o directorio no encontrado",
            str "Verifique que el archivo exista antes de intentar eliminarlo", none⟩])
        else
          let fs1 := if memPath absolutePath fs.files then
            { fs with files := removePath absolutePath fs.files } else fs
          let fs2 := if memPath absolutePath fs1.directories && isRecursive then
            { fs1 with directories := removePath absolutePath fs1.directories } else fs1
          (fs2, errs))
      (fs, [])

/-- `processCp`. -/
def processCp (cmd : CommandAST) (fs : FileSystemState) :
    FileSystemState × List FileSystemError :=
  match cmd.arguments with
  | source :: dest :: _ =>
    let sourceAbsolute := resolvePath fs source
    let destAbsolute := resolvePath fs dest
    if !(memPath sourceAbsolute fs.files) && !(memPath sourceAbsolute fs.directories) then
      (fs, [⟨str "file_not_found", cmd.raw, cmd.line, sourceAbsolute,
        str "No se puede copiar '" ++ source ++ str "': archivo no encontrado",
        str "Verifique que el archivo origen exista",
        some ⟨str "file", source, str "touch " ++ source⟩⟩])
    else
      let destDir := goDir destAbsolute
      if !(memPath destDir fs.directories) then
        (fs, [⟨str "parent_directory_not_found", cmd.raw, cmd.line, destDir,
          str "No se puede copiar a '" ++ dest ++ str "': el directorio padre no existe",
          str "Primero cree el directorio: mkdir " ++ goDir dest,
          some ⟨str "directory", goDir dest, str "mkdir " ++ goDir dest⟩⟩])
      else if memPath sourceAbsolute fs.files then
        ({ fs with files := insertPath destAbsolute fs.files }, [])
      else (fs, [])
  | _ =>
    (fs, [missingArgError cmd "cp requiere origen y destino"
            "Use: cp archivo_origen archivo_destino"])

/-- `processMv`: like `cp` but the source is removed from its set; no
builtin-directory check is performed. -/
def processMv (cmd : CommandAST) (fs : FileSystemState) :
    FileSystemState × List FileSystemError :=
  match cmd.arguments with
  | source :: dest :: _ =>
    let sourceAbsolute := resolvePath fs source
    let destAbsolute := resolvePath fs dest
    if !(memPath sourceAbsolute fs.files) && !(memPath sourceAbsolute fs.directories) then
      (fs, [⟨str "file_not_found", cmd.raw, cmd.line, sourceAbsolute,
        str "No se puede mover '" ++ source ++ str "': archivo no encontrado",
        str "Verifique que el archivo origen exista",
        some ⟨str "file", source, str "touch " ++ source⟩⟩])
    else
      let destDir := goDir destAbsolute
      if !(memPath destDir fs.directories) then
        (fs, [⟨str "parent_directory_not_found", cmd.raw, cmd.line, destDir,
          str "No se puede mover a '" ++ dest ++ str "': el directorio padre no existe",
          str "Primero cree el directorio: mkdir " ++ goDir dest,
          some ⟨str "directory", goDir dest, str "mkdir " ++ goDir dest⟩⟩])
      else
        let fs1 := if memPath sourceAbsolute fs.files then
          { fs with files := insertPath destAbsolute (removePath sourceAbsolute fs.files) }
          else fs
        let fs2 := if memPath sourceAbsolute fs1.directories then
          { fs1 with directories :=
              insertPath destAbsolute (removePath sourceAbsolute fs1.directories) }
          else fs1
        (fs2, [])
  | _ =>
    (fs, [missingArgError cmd "mv requiere origen y destino"
            "Use: mv archivo_origen archivo_destino"])

/-- `processFileRead` (`cat`, `less`, `more`, `head`, `tail`, `grep`):
no arguments reads stdin, `-`-prefixed arguments are skipped, other
arguments must name a known file or directory. -/
def processFileRead (cmd : CommandAST) (fs : FileSystemState) :
    FileSystemState × List FileSystemError :=
  if cmd.arguments.isEmpty then (fs, [])
  else
    (fs, cmd.arguments.foldl
      (fun errs arg =>
        if arg.head? = some '-' then errs
        else
          let absolutePath := resolvePath fs arg
          if !(memPath absolutePath fs.files) && !(memPath absolutePath fs.directories) then
            errs ++ [⟨str "file_not_found", cmd.raw, cmd.line, absolutePath,
              str "No se puede leer '" ++ arg ++ str "': archivo no encontrado",
              str "Verifique que el archivo exista o créelo con: touch " ++ arg,
              some ⟨str "file", arg, str "touch " ++ arg⟩⟩]
          else errs)
      [])

/-- Dispatch target of `FileSystemState.ProcessCommand`'s `switch`. -/
inductive FsCmdKind where
  | mkdir | cd | rmdir | touch | rm | cp | mv | fileRead | other
deriving DecidableEq, Repr

def fsCmdKind (name : List Char) : FsCmdKind :=
  if name = str "mkdir" then .mkdir
  else if name = str "cd" then .cd
  else if name = str "rmdir" then .rmdir
  else if name = str "touch" then .touch
  else if name = str "rm" then .rm
  else if name = str "cp" then .cp
  else if name = str "mv" then .mv
  else if name = str "cat" || name = str "less" || name = str "more" || name = str "head" ||
    name = str "tail" || name = str "grep" then .fileRead
  else .other

/-- `FileSystemState.ProcessCommand`: replay one command, returning the
updated state and the filesystem errors it reported. -/
def ProcessCommand (cmd : CommandAST) (fs : FileSystemState) :
    FileSystemState × List FileSystemError :=
  match fsCmdKind cmd.command with
  | .mkdir => processMkdir cmd fs
  | .cd => processCD cmd fs
  | .rmdir => processRmdir cmd fs
  | .touch => processTouch cmd fs
  | .rm => processRm cmd fs
  | .cp => processCp cmd fs
  | .mv => processMv cmd fs
  | .fileRead => processFileRead cmd fs
  | .other => (fs, [])

/-- Replay a whole command list from a given state, collecting all errors
in order (the loop of `Analyzer.analyzeFileSystem`). -/
def replayCommands (cmds : List CommandAST) (fs : FileSystemState) :
    FileSystemState × List FileSystemError :=
  cmds.foldl
    (fun (acc : FileSystemState × List FileSystemError) cmd =>
      let (fs, errs) := acc
      let (fs', newErrs) := ProcessCommand cmd fs
      (fs', errs ++ newErrs))
    (fs, [])

/-! ## Regex matchers for the analyzer's pattern tables

Each Go `regexp.MatchString(pattern, s)` is modelled by `anySuffix` of a
position matcher built from backtracking combinators: `skipWs1` is
`\s+`, `skipWsStar` is `\s*`, `skipDotStar` is `.*` (anything but a
newline), `skipNotSlashStar` is `[^/]*`, `skipDigits1` is `[0-9]+`. -/

def skipWs1 (k : List Char → Bool) : List Char → Bool
  | [] => false
  | c :: rest => wsRe c && (k rest || skipWs1 k rest)

def skipWsStar (k : List Char → Bool) : List Char → Bool
  | [] => k []
  | c :: rest => k (c :: rest) || (wsRe c && skipWsStar k rest)

def skipDotStar (k : List Char → Bool) : List Char → Bool
  | [] => k []
  | c :: rest => k (c :: rest) || (!(c = '\n') && skipDotStar k rest)

def skipNotSlashStar (k : List Char → Bool) : List Char → Bool
  | [] => k []
  | c :: rest => k (c :: rest) || (!(c = '/') && skipNotSlashStar k rest)

def skipDigits1 (k : List Char → Bool) : List Char → Bool
  | [] => false
  | c :: rest => c.isDigit && (k rest || skipDigits1 k rest)

/-- Unanchored substring containment, i.e. `strings.Contains` and also a
Go regexp consisting of a literal only. -/
def containsSeg (needle l : List Char) : Bool := anySuffix (List.isPrefixOf needle) l

/-- `[0-9]+\.[0-9]+\.[0-9]+\.[0-9]+` at the current position. -/
def ipAt : List Char → Bool :=
  skipDigits1 (fun l =>
    match l with
    | '.' :: r => skipDigits1 (fun l2 =>
        match l2 with
        | '.' :: r2 => skipDigits1 (fun l3 =>
            match l3 with
            | '.' :: r3 => skipDigits1 (fun _ => true) r3
            | _ => false) r2
        | _ => false) r
    | _ => false)

/-- The tail of `rm\s+-rf\s+/` after the second `\s+`: a literal `/`. -/
def rmRfSlash (l : List Char) : Bool := l.head? = some '/'

/-- The part of `rm\s+-rf\s+/` after the first `\s+`: the literal `-rf`,
then one-or-more whitespace, then `/`. -/
def rmRfDashRf : List Char → Bool
  | '-' :: 'r' :: 'f' :: rest => skipWs1 rmRfSlash rest
  | _ => false

/-- `rm\s+-rf\s+/` anchored at the current position. -/
def rmRfAt : List Char → Bool
  | 'r' :: 'm' :: rest => skipWs1 rmRfDashRf rest
  | _ => false

/-- `rm\s+-rf\s+/`. -/
def patRmRf (l : List Char) : Bool := anySuffix rmRfAt l

/-- `dd\s+if=.*of=/dev/sd`. -/
def patDdSd (l : List Char) : Bool :=
  anySuffix (fun l0 =>
    List.isPrefixOf (str "dd") l0 &&
    skipWs1 (fun l1 =>
      List.isPrefixOf (str "if=") l1 &&
      skipDotStar (List.isPrefixOf (str "of=/dev/sd")) (l1.drop 3)) (l0.drop 2)) l

/-- `mkfs` (a bare literal). -/
def patMkfs (l : List Char) : Bool := containsSeg (str "mkfs") l

/-- `fdisk.*-l`. -/
def patFdiskL (l : List Char) : Bool :=
  anySuffix (fun l0 =>
    List.isPrefixOf (str "fdisk") l0 &&
    skipDotStar (List.isPrefixOf (str "-l")) (l0.drop 5)) l

/-- `chmod\s+777\s+/`. -/
def patChmod777 (l : List Char) : Bool :=
  anySuffix (fun l0 =>
    List.isPrefixOf (str "chmod") l0 &&
    skipWs1 (fun l1 =>
      List.isPrefixOf (str "777") l1 &&
      skipWs1 (fun l2 => List.isPrefixOf (str "/") l2) (l1.drop 3)) (l0.drop 5)) l

/-- `sudo\s+su\s*-`. -/
def patSudoSu (l : List Char) : Bool :=
  anySuffix (fun l0 =>
    List.isPrefixOf (str "sudo") l0 &&
    skipWs1 (fun l1 =>
      List.isPrefixOf (str "su") l1 &&
      skipWsStar (fun l2 => List.isPrefixOf (str "-") l2) (l1.drop 2)) (l0.drop 4)) l

/-- `sudo\s+-s`. -/
def patSudoDashS (l : List Char) : Bool :=
  anySuffix (fun l0 =>
    List.isPrefixOf (str "sudo") l0 &&
    skipWs1 (List.isPrefixOf (str "-s")) (l0.drop 4)) l

/-- `sudo\s+passwd`. -/
def patSudoPasswd (l : List Char) : Bool :=
  anySuffix (fun l0 =>
    List.isPrefixOf (str "sudo") l0 &&
    skipWs1 (List.isPrefixOf (str "passwd")) (l0.drop 4)) l

/-- `su\s+root`. -/
def patSuRoot (l : List Char) : Bool :=
  anySuffix (fun l0 =>
    List.isPrefixOf (str "su") l0 &&
    skipWs1 (List.isPrefixOf (str "root")) (l0.drop 2)) l

/-- `wget.*http://[^/]*[0-9]+\.[0-9]+\.[0-9]+\.[0-9]+`. -/
def patWgetIp (l : List Char) : Bool :=
  anySuffix (fun l0 =>
    List.isPrefixOf (str "wget") l0 &&
    skipDotStar (fun l1 =>
      List.isPrefixOf (str "http://") l1 &&
      skipNotSlashStar ipAt (l1.drop 7)) (l0.drop 4)) l

/-- `curl.*http://[^/]*[0-9]+\.[0-9]+\.[0-9]+\.[0-9]+`. -/
def patCurlIp (l : List Char) : Bool :=
  anySuffix (fun l0 =>
    List.isPrefixOf (str "curl") l0 &&
    skipDotStar (fun l1 =>
      List.isPrefixOf (str "http://") l1 &&
      skipNotSlashStar ipAt (l1.drop 7)) (l0.drop 4)) l

/-- `ssh.*[0-9]+\.[0-9]+\.[0-9]+\.[0-9]+`. -/
def patSshIp (l : List Char) : Bool :=
  anySuffix (fun l0 =>
    List.isPrefixOf (str "ssh") l0 && skipDotStar ipAt (l0.drop 3)) l

/-- `nc\s+.*[0-9]+\.[0-9]+\.[0-9]+\.[0-9]+`. -/
def patNcIp (l : List Char) : Bool :=
  anySuffix (fun l0 =>
    List.isPrefixOf (str "nc") l0 && skipWs1 (skipDotStar ipAt) (l0.drop 2)) l

/-- `192\.168\.|10\.|172\.` (the ssh private-network check): an
alternation of literals, i.e. containment of any of them. -/
def patPrivateIp (l : List Char) : Bool :=
  containsSeg (str "192.168.") l || containsSeg (str "10.") l || containsSeg (str "172.") l

/-! ## Semantic analyzer (first `Analyzer` variant in internal/semantic) -/

inductive ThreatLevel where
  | SAFE | LOW | MEDIUM | HIGH | CRITICAL
deriving DecidableEq, Repr

structure ThreatDetection where
  type : List Char
  level : ThreatLevel
  description : List Char
  command : List Char
  line : Nat
  suggestions : List (List Char)
deriving DecidableEq, Repr

structure PatternMatch where
  pattern : List Char
  description : List Char
  occurrences : Nat
  examples : List (List Char)
deriving DecidableEq, Repr

structure Anomaly where
  type : List Char
  description : List Char
  command : List Char
  line : Nat
deriving DecidableEq, Repr

/-- An entry of one of the regexp tables: the compiled matcher and the
description attached to the pattern. -/
abbrev PatternEntry := (List Char → Bool) × List Char

/-- `criticalPatterns`, in source-listing order.  The Go table is a map,
so the order in which `checkCriticalCommands` ranges over it is
unspecified — theorems about order sensitivity quantify over
permutations of this list. -/
def criticalPatterns : List PatternEntry :=
  [(patRmRf, str "Eliminación recursiva del sistema de archivos raíz"),
   (patDdSd, str "Sobrescritura directa de disco"),
   (patMkfs, str "Formateo de sistema de archivos"),
   (patFdiskL, str "Manipulación de particiones"),
   (patChmod777, str "Permisos peligrosos en directorio raíz")]

/-- `privilegePatterns`, in source-listing order. -/
def privilegePatterns : List PatternEntry :=
  [(patSudoSu, str "Cambio a usuario root"),
   (patSudoDashS, str "Shell con privilegios elevados"),
   (patSudoPasswd, str "Cambio de contraseña con sudo"),
   (patSuRoot, str "Cambio directo a root")]

/-- `networkPatterns`, in source-listing order. -/
def networkPatterns : List PatternEntry :=
  [(patWgetIp, str "Descarga desde IP directa"),
   (patCurlIp, str "Descarga con curl desde IP"),
   (patSshIp, str "Conexión SSH a IP directa"),
   (patNcIp, str "Netcat a IP directa")]

def suspiciousDomains : List (List Char) :=
  [str "pastebin.com", str "hastebin.com", str "ix.io", str "0x0.st",
   str "temp.sh", str "transfer.sh", str "file.io"]

def dangerousExtensions : List (List Char) :=
  [str ".sh", str ".py", str ".pl", str ".exe", str ".bat", str ".cmd", str ".scr"]

/-- `generateSuggestions` (first analyzer variant, including the
`filesystem_error` case). -/
def generateSuggestions (threatType : List Char) : List (List Char) :=
  if threatType = str "critical_command" then
    [str "Evite usar comandos destructivos en el sistema raíz",
     str "Use comandos más específicos y menos peligrosos",
     str "Verifique dos veces antes de ejecutar comandos críticos"]
  else if threatType = str "privilege_escalation" then
    [str "Use sudo solo cuando sea absolutamente necesario",
     str "Prefiera comandos específicos en lugar de shells elevados",
     str "Considere usar herramientas específicas en lugar de acceso root"]
  else if threatType = str "suspicious_download" then
    [str "Verifique la fuente antes de descargar archivos",
     str "Use dominios oficiales y repositorios confiables",
     str "Escanee archivos descargados antes de ejecutarlos"]
  else if threatType = str "filesystem_error" then
    [str "Verifique que los directorios y archivos existan antes de usarlos",
     str "Cree las dependencias necesarias en el orden correcto",
     str "Use comandos como 'ls' para verificar la existencia de archivos"]
  else
    [str "Revise el comando para asegurar que es seguro",
     str "Considere alternativas más seguras"]

/-- `addThreat`'s record construction. -/
def mkThreat (level : ThreatLevel) (threatType description : List Char) (cmd : CommandAST) :
    ThreatDetection :=
  ⟨threatType, level, description, cmd.raw, cmd.line, generateSuggestions threatType⟩

/-- `checkCriticalCommands`, with the table iteration order as a
parameter: the first matching pattern wins and its `return` skips the
rm/dd specific checks; with no table match, the rm and dd checks run. -/
def checkCriticalCommands (critOrder : List PatternEntry) (cmd : CommandAST) :
    List ThreatDetection :=
  match critOrder.find? (fun pd => pd.1 cmd.raw) with
  | some pd => [mkThreat .CRITICAL (str "critical_command") pd.2 cmd]
  | none =>
    (if cmd.command = str "rm" &&
        (hasFlag cmd (str "rf") || (hasFlag cmd (str "r") && hasFlag cmd (str "f"))) then
      cmd.arguments.foldl
        (fun acc arg =>
          if containsSeg (str "/") arg && !(List.isPrefixOf (str "./") arg) then
            acc ++ [mkThreat .HIGH (str "dangerous_deletion")
              (str "Eliminación recursiva forzada en directorio del sistema") cmd]
          else acc) []
    else []) ++
    (if cmd.command = str "dd" then
      cmd.arguments.foldl
        (fun acc arg =>
          if containsSeg (str "/dev/") arg then
            acc ++ [mkThreat .CRITICAL (str "disk_manipulation")
              (str "Manipulación directa de dispositivo de disco") cmd]
          else acc) []
    else [])

/-- `checkPrivilegeEscalation`: first table match wins (skipping the
sudo-specific check); otherwise `sudo <dangerous>` yields a medium threat. -/
def checkPrivilegeEscalation (privOrder : List PatternEntry) (cmd : CommandAST) :
    List ThreatDetection :=
  match privOrder.find? (fun pd => pd.1 cmd.raw) with
  | some pd => [mkThreat .HIGH (str "privilege_escalation") pd.2 cmd]
  | none =>
    if cmd.command = str "sudo" then
      match cmd.arguments with
      | sudoCmd :: _ =>
        if [str "rm", str "chmod", str "chown", str "mount", str "umount"].contains sudoCmd then
          [mkThreat .MEDIUM (str "sudo_dangerous")
            (str "Uso de sudo con comando potencialmente peligroso") cmd]
        else []
      | [] => []
    else []

/-- `checkNetworkActivity`: every matching network pattern fires (in
table order); then the wget/curl URL checks and the ssh checks. -/
def checkNetworkActivity (netOrder : List PatternEntry) (cmd : CommandAST) :
    List ThreatDetection :=
  (netOrder.foldl
    (fun acc pd =>
      if pd.1 cmd.raw then
        acc ++ [mkThreat .MEDIUM (str "suspicious_network") pd.2 cmd]
      else acc) []) ++
  (if [str "wget", str "curl"].contains cmd.command then
    cmd.arguments.foldl
      (fun acc arg =>
        if List.isPrefixOf (str "http://") arg || List.isPrefixOf (str "https://") arg then
          acc ++
          (suspiciousDomains.foldl
            (fun acc2 domain =>
              if containsSeg domain arg then
                acc2 ++ [mkThreat .MEDIUM (str "suspicious_download")
                  (str "Descarga desde dominio sospechoso: " ++ domain) cmd]
              else acc2) []) ++
          (dangerousExtensions.foldl
            (fun acc2 ext =>
              if List.isSuffixOf ext arg then
                acc2 ++ [mkThreat .MEDIUM (str "dangerous_file_download")
                  (str "Descarga de archivo ejecutable") cmd]
              else acc2) [])
        else acc) []
  else []) ++
  (if cmd.command = str "ssh" then
    cmd.arguments.foldl
      (fun acc arg =>
        acc ++
        (if containsSeg (str "root@") arg then
          [mkThreat .MEDIUM (str "root_ssh") (str "Conexión SSH como usuario root") cmd]
        else []) ++
        (if patPrivateIp arg then
          [mkThreat .LOW (str "private_network_ssh") (str "Conexión SSH a red privada") cmd]
        else [])) []
  else [])

def sensitiveFiles : List (List Char) :=
  [str "/etc/passwd", str "/etc/shadow", str "/etc/hosts", str "/etc/fstab",
   str "/boot/", str "/sys/", str "/proc/", str "~/.ssh/", str "~/.bashrc"]

/-- `checkFileManipulation` (first analyzer variant): sensitive-path
substrings in the arguments of read-style commands. -/
def checkFileManipulation (cmd : CommandAST) : List ThreatDetection :=
  if [str "cat", str "less", str "more", str "head", str "tail", str "grep", str "sed",
      str "awk"].contains cmd.command then
    cmd.arguments.foldl
      (fun acc arg =>
        acc ++ sensitiveFiles.foldl
          (fun acc2 sensitive =>
            if containsSeg sensitive arg then
              acc2 ++ [mkThreat .MEDIUM (str "sensitive_file_access")
                (str "Acceso a archivo sensible del sistema: " ++ arg) cmd]
            else acc2) []) []
  else []

/-- `checkCommandChaining` (first analyzer variant). -/
def checkCommandChaining (cmd : CommandAST) : List ThreatDetection :=
  if (containsSeg (str "&&") cmd.raw || containsSeg (str ";") cmd.raw) &&
      (containsSeg (str "wget") cmd.raw && containsSeg (str "chmod") cmd.raw) then
    [mkThreat .HIGH (str "download_execute_chain")
      (str "Cadena de descarga y ejecución detectada") cmd]
  else []

def suspiciousKeywords : List (List Char) :=
  [str "malware", str "payload", str "exploit", str "backdoor", str "shell",
   str "reverse", str "bind", str "nc", str "netcat"]

/-- `checkSuspiciousDownloads` (first analyzer variant): keyword
substrings of lowercased wget/curl arguments. -/
def checkSuspiciousDownloads (cmd : CommandAST) : List ThreatDetection :=
  if [str "wget", str "curl"].contains cmd.command then
    cmd.arguments.foldl
      (fun acc arg =>
        acc ++ suspiciousKeywords.foldl
          (fun acc2 kw =>
            if containsSeg kw (arg.map Char.toLower) then
              acc2 ++ [mkThreat .HIGH (str "suspicious_filename")
                (str "Descarga con nombre sospechoso: " ++ kw) cmd]
            else acc2) []) []
  else []

/-- `analyzeCommand`: all per-command checks, in call order. -/
def analyzeCommand (critOrder privOrder netOrder : List PatternEntry) (cmd : CommandAST) :
    List ThreatDetection :=
  checkCriticalCommands critOrder cmd ++
  checkPrivilegeEscalation privOrder cmd ++
  checkNetworkActivity netOrder cmd ++
  checkFileManipulation cmd ++
  checkCommandChaining cmd ++
  checkSuspiciousDownloads cmd

/-- `detectPatterns` (first analyzer variant): sudo and network-tool
usage counts against fixed thresholds. -/
def detectPatterns (cmds : List CommandAST) : List PatternMatch :=
  let sudoCommands := (cmds.filter (fun c => c.command = str "sudo")).map CommandAST.raw
  let networkCommands := (cmds.filter (fun c =>
    [str "wget", str "curl", str "ssh", str "scp", str "rsync"].contains c.command)).map
      CommandAST.raw
  (if sudoCommands.length > 5 then
    [⟨str "excessive_sudo", str "Uso excesivo de sudo detectado", sudoCommands.length,
      sudoCommands.take 3⟩]
  else []) ++
  (if networkCommands.length > 3 then
    [⟨str "multiple_network", str "Múltiples comandos de red detectados",
      networkCommands.length, networkCommands.take 3⟩]
  else [])

/-- `detectAnomalies`: sliding window over adjacent command pairs. -/
def detectAnomalies (cmds : List CommandAST) : List Anomaly :=
  (cmds.zip cmds.tail).foldl
    (fun acc (pair : CommandAST × CommandAST) =>
      let current := pair.1
      let next := pair.2
      acc ++
      (if [str "wget", str "curl"].contains current.command &&
          (next.command = str "chmod" && hasFlag next (str "x")) then
        [⟨str "download_execute_sequence", str "Secuencia de descarga y dar permisos de ejecución",
          current.raw ++ str " ; " ++ next.raw, current.line⟩]
      else []) ++
      (if current.command = str "sudo" && next.command = str "rm" then
        [⟨str "sudo_delete_sequence", str "Uso de sudo seguido de eliminación",
          current.raw ++ str " ; " ++ next.raw, current.line⟩]
      else [])) []

/-- `isFileSystemErrorCritical`. -/
def isFileSystemErrorCritical (e : FileSystemError) : Bool :=
  [str "directory_not_found", str "file_not_found", str "parent_directory_not_found"].contains
    e.type

/-- The threat-producing part of `analyzeFileSystem`: replay the command
list on the analyzer's fresh `FileSystemState` and promote critical
filesystem errors to high threats, in replay order. -/
def fileSystemThreats (cmds : List CommandAST) : List ThreatDetection :=
  ((cmds.foldl
    (fun (acc : FileSystemState × List ThreatDetection) cmd =>
      let (fs, threats) := acc
      let (fs', errs) := ProcessCommand cmd fs
      (fs', threats ++ (errs.filter isFileSystemErrorCritical).map
        (fun e => mkThreat .HIGH (str "filesystem_error") e.description cmd)))
    (NewFileSystemState, []))).2

/-- `Analyzer.Analyze` with explicit iteration orders for the three
regexp tables (Go ranges over them in unspecified map order): the
per-command threats in command order, then patterns, anomalies, and the
filesystem-promoted threats appended by `analyzeFileSystem`. -/
def AnalyzeOrdered (critOrder privOrder netOrder : List PatternEntry) (cmds : List CommandAST) :
    List ThreatDetection × List PatternMatch × List Anomaly :=
  ((cmds.foldl (fun acc cmd => acc ++ analyzeCommand critOrder privOrder netOrder cmd) []) ++
    fileSystemThreats cmds,
   detectPatterns cmds,
   detectAnomalies cmds)

/-- `Analyzer.Analyze` on a fresh `NewAnalyzer`, with the tables iterated
in source-listing order. -/
def Analyze (cmds : List CommandAST) :
    List ThreatDetection × List PatternMatch × List Anomaly :=
  AnalyzeOrdered criticalPatterns privilegePatterns networkPatterns cmds

/-! ## Spell checker (internal/parser/spellchecker.go) -/

/-- `getKnownCommands`, in source-listing order (the Go value is a set;
only membership is observable except for `findSimilarCommands`'s
iteration, see there). -/
def knownCommands : List (List Char) :=
  [str "ls", str "cd", str "pwd", str "echo", str "cat", str "grep", str "find", str "head",
   str "tail", str "sort", str "uniq", str "wc", str "diff", str "file", str "which",
   str "whereis", str "man",
   str "cp", str "mv", str "rm", str "mkdir", str "rmdir", str "touch", str "chmod",
   str "chown", str "tar", str "gzip", str "gunzip", str "zip", str "unzip", str "ln",
   str "du", str "df",
   str "wget", str "curl", str "ssh", str "scp", str "rsync", str "ping", str "traceroute",
   str "netstat", str "ss", str "iptables", str "dig", str "nslookup", str "host",
   str "git", str "npm", str "pip", str "node", str "python", str "python3", str "java",
   str "gcc", str "make", str "cmake", str "mvn", str "gradle", str "docker", str "kubectl",
   str "vim", str "vi", str "nano", str "emacs", str "code", str "gedit",
   str "sudo", str "su", str "ps", str "top", str "htop", str "kill", str "killall",
   str "mount", str "umount", str "systemctl", str "service", str "crontab", str "jobs",
   str "bg", str "fg", str "nohup", str "screen", str "tmux", str "history", str "clear",
   str "export", str "alias", str "unalias", str "whoami", str "id", str "groups",
   str "passwd", str "useradd", str "userdel",
   str "awk", str "sed", str "tr", str "cut", str "paste", str "xargs", str "tee",
   str "less", str "more", str "watch", str "comm", str "join",
   str "nc", str "netcat", str "socat", str "openssl", str "telnet", str "ftp", str "sftp",
   str "lsof", str "strace", str "ltrace", str "tcpdump", str "wireshark", str "iotop",
   str "vmstat", str "iostat", str "free", str "uptime", str "uname"]

/-- `getCommonTypos`: the curated typo→correction table. -/
def commonTypos : List (List Char × List Char) :=
  [(str "suo", str "sudo"), (str "sud", str "sudo"), (str "sude", str "sudo"),
   (str "suod", str "sudo"), (str "dosu", str "sudo"),
   (str "sl", str "ls"), (str "lss", str "ls"), (str "lst", str "ls"), (str "lis", str "ls"),
   (str "cta", str "cat"), (str "car", str "cat"), (str "act", str "cat"),
   (str "grp", str "grep"), (str "gerp", str "grep"), (str "grap", str "grep"),
   (str "greap", str "grep"),
   (str "crul", str "curl"), (str "culr", str "curl"), (str "crurl", str "curl"),
   (str "curll", str "curl"),
   (str "wgte", str "wget"), (str "wegt", str "wget"), (str "wgett", str "wget"),
   (str "shh", str "ssh"), (str "sssh", str "ssh"), (str "ssh2", str "ssh"),
   (str "chmdo", str "chmod"), (str "chmood", str "chmod"), (str "chomd", str "chmod"),
   (str "chmode", str "chmod"),
   (str "gti", str "git"), (str "gut", str "git"), (str "igt", str "git"),
   (str "vmi", str "vim"), (str "ivm", str "vim"), (str "vom", str "vim"),
   (str "tpo", str "top"), (str "opt", str "top"), (str "toop", str "top"),
   (str "kil", str "kill"), (str "killl", str "kill"), (str "klil", str "kill"),
   (str "mkdr", str "mkdir"), (str "mkidr", str "mkdir"), (str "mdir", str "mkdir"),
   (str "mvoe", str "move"), (str "moev", str "move"),
   (str "celar", str "clear"), (str "clera", str "clear"), (str "claer", str "clear"),
   (str "cler", str "clear"),
   (str "ehco", str "echo"), (str "ecoh", str "echo"), (str "eecho", str "echo"),
   (str "hsitory", str "history"), (str "histroy", str "history"), (str "histry", str "history"),
   (str "fdin", str "find"), (str "fnid", str "find"), (str "fidn", str "find"),
   (str "hcmod", str "chmod"), (str "chmo", str "chmod"), (str "cmod", str "chmod"),
   (str "owch", str "chown"), (str "chon", str "chown"), (str "chonw", str "chown"),
   (str "tuch", str "touch"), (str "touhc", str "touch"), (str "toucn", str "touch"),
   (str "mkfs.", str "mkfs"), (str "umnt", str "umount"), (str "unmount", str "umount"),
   (str "umoutn", str "umount")]

structure CommandSuggestion where
  command : List Char
  distance : Nat
  similarity : ℚ
deriving DecidableEq, Repr

structure SpellingSuggestion where
  original : List Char
  suggested : List Char
  confidence : ℚ
  reason : List Char
  alternatives : List CommandSuggestion
deriving DecidableEq, Repr

/-- Go's three-argument `min` helper. -/
def min3 (a b c : Nat) : Nat :=
  if a ≤ b && a ≤ c then a else if b ≤ c then b else c

/-- `levenshteinDistance`: the DP matrix of the Go code computes exactly
this standard recurrence (deletion/insertion/substitution each cost 1). -/
def levenshteinDistance : List Char → List Char → Nat
  | [], s2 => s2.length
  | s1, [] => s1.length
  | a :: s1, b :: s2 =>
    min3 (levenshteinDistance s1 (b :: s2) + 1)
      (levenshteinDistance (a :: s1) s2 + 1)
      (levenshteinDistance s1 s2 + (if a = b then 0 else 1))
termination_by s1 s2 => s1.length + s2.length
decreasing_by all_goals simp_arith

/-- One inner pass of the exchange sort in `findSimilarCommands`: compare
the running element at position `i` with each later element, swapping
whenever the later similarity is greater; returns the final element at
`i` and the (displaced) tail. -/
def selectSwap (x : CommandSuggestion) : List CommandSuggestion →
    CommandSuggestion × List CommandSuggestion
  | [] => (x, [])
  | y :: rest =>
    if x.similarity < y.similarity then
      let (m, rest') := selectSwap y rest
      (m, x :: rest')
    else
      let (m, rest') := selectSwap x rest
      (m, y :: rest')

/-- The double loop sorting `suggestions` by similarity, descending
(an in-place exchange sort). -/
def exchangeSortFuel : Nat → List CommandSuggestion → List CommandSuggestion
  | 0, l => l
  | _ + 1, [] => []
  | fuel + 1, x :: rest =>
    let (m, rest') := selectSwap x rest
    m :: exchangeSortFuel fuel rest'

def exchangeSort (l : List CommandSuggestion) : List CommandSuggestion :=
  exchangeSortFuel l.length l

/-- `findSimilarCommands`: candidates at Levenshtein distance in
`(0, maxDistance]` from the known-command table, ranked by descending
similarity `1 - d / max(len)`, at most three returned.  Go iterates the
known-command map in unspecified order; the source-listing order is used
here (the iteration order can affect the ranking among equal
similarities, which no claim depends on). -/
def findSimilarCommands (command : List Char) (maxDistance : Nat) : List CommandSuggestion :=
  let suggestions := knownCommands.foldl
    (fun acc knownCmd =>
      let distance := levenshteinDistance command knownCmd
      if distance ≤ maxDistance && distance > 0 then
        acc ++ [⟨knownCmd, distance,
          1 - (distance : ℚ) / (max command.length knownCmd.length : ℚ)⟩]
      else acc) []
  (exchangeSort suggestions).take 3

/-- `SpellChecker.CheckSpelling`: `nil` for known commands, then the
exact typo table (confidence 0.95, that is `19/20`), then the
edit-distance search. -/
def CheckSpelling (command : List Char) : Option SpellingSuggestion :=
  if knownCommands.contains command then none
  else
    match (commonTypos.find? (fun p => p.1 == command)).map (·.2) with
    | some correction =>
      some ⟨command, correction, 19 / 20, str "Error de tipeo común", []⟩
    | none =>
      match findSimilarCommands command 2 with
      | [] => none
      | s :: rest =>
        some ⟨command, s.command, s.similarity, str "Comando similar encontrado", rest⟩

/-! ## Lemmas about the lexer -/

theorem takeWhile_eq_take_len (p : Char → Bool) : ∀ l : List Char,
    l.takeWhile p = l.take (l.takeWhile p).length := by
  intro l
  induction l with
  | nil => rfl
  | cons c rest ih =>
    cases h : p c with
    | true =>
      have h1 : (c :: rest).takeWhile p = c :: rest.takeWhile p := by
        rw [List.takeWhile_cons, h]
        simp
      rw [h1, List.length_cons, List.take_succ_cons, ← ih]
    | false =>
      have h1 : (c :: rest).takeWhile p = [] := by
        rw [List.takeWhile_cons, h]
        simp
      rw [h1]
      rfl

theorem concatValues_append (a b : List Token) :
    concatValues (a ++ b) = concatValues a ++ concatValues b := by
  simp [concatValues]

theorem classifyWord_ne_eof (w : List Char) (b : Bool) : ¬ classifyWord w b = .EOF := by
  unfold classifyWord
  split_ifs <;> decide

set_option maxHeartbeats 1000000 in
/-- Combined branch analysis of one `nextToken` step: it always consumes
at least one character, never emits an EOF token, and when it reports no
error the emitted token's value is exactly the consumed segment. -/
theorem lexStep_spec (s : LexState) (h : s.pos < s.input.length) :
    1 ≤ (lexStep s).consumed ∧
    (∀ t ∈ (lexStep s).toks, ¬ t.type = .EOF) ∧
    ((lexStep s).errs = [] →
      concatValues (lexStep s).toks = (s.input.drop s.pos).take (lexStep s).consumed) := by
  have hne : ¬ s.input.drop s.pos = [] := by
    simp only [List.drop_eq_nil_iff]
    omega
  rcases hrem : s.input.drop s.pos with _ | ⟨c, rest⟩
  · exact absurd hrem hne
  · simp only [lexStep, hrem]
    split_ifs with h1 h2 h3 h4 h5 h6 h7 h8 h9
    · -- whitespace
      have hws : (c :: rest).takeWhile isSpaceTab ≠ [] := by
        simp only [List.takeWhile_cons]
        have : isSpaceTab c = true := by
          rcases Bool.or_eq_true_iff.mp h1 with hc | hc <;> simp [isSpaceTab, hc]
        simp [this]
      refine ⟨?_, by simp, fun _ => ?_⟩
      · show 1 ≤ ((c :: rest).takeWhile isSpaceTab).length
        have := List.length_pos.mpr hws
        omega
      · simpa [concatValues] using takeWhile_eq_take_len isSpaceTab (c :: rest)
    · -- newline
      refine ⟨by show (1:Nat) ≤ 1; omega, by simp, fun _ => ?_⟩
      have : c = '\n' := by simpa using h2
      simp [concatValues, this]
    · -- comment
      have hcm : (c :: rest).takeWhile (fun d => !(d = '\n')) ≠ [] := by
        simp only [List.takeWhile_cons]
        have : (fun d => !(d = '\n')) c = true := by simpa using h2
        simp [this]
      refine ⟨?_, by simp, fun _ => ?_⟩
      · show 1 ≤ ((c :: rest).takeWhile (fun d => !(d = '\n'))).length
        have := List.length_pos.mpr hcm
        omega
      · simpa [concatValues] using takeWhile_eq_take_len (fun d => !(d = '\n')) (c :: rest)
    · -- pipe
      refine ⟨by show (1:Nat) ≤ 1; omega, by simp, fun _ => ?_⟩
      have : c = '|' := by simpa using h4
      simp [concatValues, this]
    · -- redirect, two-character `>>`
      rcases Bool.and_eq_true_iff.mp h6 with ⟨hc, hh⟩
      have hc' : c = '>' := by simpa using hc
      have hh' : rest.head? = some '>' := by simpa using hh
      rcases rest with _ | ⟨d, rest2⟩
      · simp at hh'
      · have hd : d = '>' := by simpa using hh'
        refine ⟨by show 1 ≤ 2; omega, by simp, fun _ => ?_⟩
        simp [concatValues, hc', hd]
    · -- redirect, single character
      refine ⟨by show 1 ≤ 1; omega, by simp, fun _ => ?_⟩
      simp [concatValues]
    · -- quoted string
      rcases hsq : scanQuote c rest with _ | n
      · refine ⟨?_, by simp, fun he => by simp at he⟩
        show 1 ≤ s.input.length - s.pos
        omega
      · refine ⟨?_, by simp, fun _ => by simp [concatValues]⟩
        show 1 ≤ n + 2
        omega
    · -- word
      have hw : (c :: rest).takeWhile isWordChar ≠ [] := by
        simp only [List.takeWhile_cons]
        have : isWordChar c = true := by simp [isWordChar, h8]
        simp [this]
      refine ⟨?_, ?_, fun _ => ?_⟩
      · show 1 ≤ ((c :: rest).takeWhile isWordChar).length
        have := List.length_pos.mpr hw
        omega
      · simpa using classifyWord_ne_eof ((c :: rest).takeWhile isWordChar) _
      · simpa [concatValues] using takeWhile_eq_take_len isWordChar (c :: rest)
    · -- operator
      refine ⟨by show (1:Nat) ≤ 1; omega, by simp, fun _ => ?_⟩
      simp [concatValues]
    · -- unrecognized character
      exact ⟨by show (1:Nat) ≤ 1; omega, by simp, fun he => by simp at he⟩

theorem nextToken_fields (s : LexState) :
    (nextToken s).input = s.input ∧ (nextToken s).pos = s.pos + (lexStep s).consumed ∧
    (nextToken s).tokens = s.tokens ++ (lexStep s).toks ∧
    (nextToken s).errors = s.errors ++ (lexStep s).errs := by
  refine ⟨rfl, rfl, rfl, rfl⟩

theorem runLexer_basic : ∀ (fuel : Nat) (s : LexState),
    (runLexer fuel s).input = s.input ∧
    ∃ ex, (runLexer fuel s).errors = s.errors ++ ex := by
  intro fuel
  induction fuel with
  | zero => exact fun s => ⟨rfl, [], by simp [runLexer]⟩
  | succ f ih =>
    intro s
    unfold runLexer
    split
    · obtain ⟨hi, ex, hex⟩ := ih (nextToken s)
      exact ⟨hi, (lexStep s).errs ++ ex, by rw [hex]; simp [nextToken]⟩
    · exact ⟨rfl, [], by simp⟩

theorem runLexer_concat : ∀ (fuel : Nat) (s : LexState),
    concatValues s.tokens = s.input.take s.pos →
    (runLexer fuel s).errors = [] →
    concatValues (runLexer fuel s).tokens =
      (runLexer fuel s).input.take (runLexer fuel s).pos := by
  intro fuel
  induction fuel with
  | zero => exact fun s hc _ => hc
  | succ f ih =>
    intro s hc he
    unfold runLexer at he ⊢
    by_cases hp : s.pos < s.input.length
    · rw [if_pos hp] at he ⊢
      obtain ⟨_, ex, hex⟩ := runLexer_basic f (nextToken s)
      rw [hex] at he
      have hboth := List.append_eq_nil.mp he
      have hstep : (lexStep s).errs = [] :=
        (List.append_eq_nil.mp ((nextToken_fields s).2.2.2 ▸ hboth.1)).2
      refine ih (nextToken s) ?_ ?_
      · show concatValues (s.tokens ++ (lexStep s).toks) =
          s.input.take (s.pos + (lexStep s).consumed)
        rw [concatValues_append, hc, (lexStep_spec s hp).2.2 hstep, List.take_add]
      · rw [hex, hboth.1]
        simp [hboth.2]
    · rw [if_neg hp] at he ⊢
      exact hc

theorem runLexer_completes : ∀ (fuel : Nat) (s : LexState),
    s.input.length - s.pos < fuel →
    (runLexer fuel s).input.length ≤ (runLexer fuel s).pos := by
  intro fuel
  induction fuel with
  | zero => exact fun s h => absurd h (by omega)
  | succ f ih =>
    intro s h
    unfold runLexer
    by_cases hp : s.pos < s.input.length
    · rw [if_pos hp]
      refine ih (nextToken s) ?_
      have h1 := (lexStep_spec s hp).1
      have h2 := (nextToken_fields s).2.1
      have h3 := (nextToken_fields s).1
      rw [h2, h3]
      omega
    · rw [if_neg hp]
      omega

theorem runLexer_no_eof : ∀ (fuel : Nat) (s : LexState),
    (∀ t ∈ s.tokens, ¬ t.type = .EOF) →
    ∀ t ∈ (runLexer fuel s).tokens, ¬ t.type = .EOF := by
  intro fuel
  induction fuel with
  | zero => exact fun s h => h
  | succ f ih =>
    intro s hs
    unfold runLexer
    by_cases hp : s.pos < s.input.length
    · rw [if_pos hp]
      refine ih (nextToken s) ?_
      intro t ht
      rw [(nextToken_fields s).2.2.1] at ht
      rcases List.mem_append.mp ht with h | h
      · exact hs t h
      · exact (lexStep_spec s hp).2.1 t h
    · rw [if_neg hp]
      exact hs

/-! ## Claim C1: token round trip -/

/-- C1 (counterexample): the round-trip claim fails as stated.  On the
input `"+"` the character is unrecognized (it is skipped with a lexical
error and no token), so concatenating all token values yields the empty
string, not the input. -/
theorem tokenize_roundtrip_cex :
    ¬ concatValues (Tokenize (str "+")).1 = str "+" := by decide

/-- C1 (amended): for every input on which `Tokenize` reports no lexical
error, concatenating the `Value` fields of all returned tokens in order
(whitespace, comment and newline tokens included, plus the empty EOF
token) reproduces the input exactly.  Inputs with lexical errors lose
the characters of unrecognized bytes and of unterminated strings. -/
theorem tokenize_roundtrip (input : List Char) (h : (Tokenize input).2 = []) :
    concatValues (Tokenize input).1 = input := by
  have hfe : (runLexer (input.length + 1) (lexInit input)).errors = [] := by
    simpa [Tokenize] using h
  have hc := runLexer_concat (input.length + 1) (lexInit input)
    (by simp [lexInit, concatValues]) hfe
  have hcomp := runLexer_completes (input.length + 1) (lexInit input)
    (by simp [lexInit])
  have hin := (runLexer_basic (input.length + 1) (lexInit input)).1
  have hin' : (lexInit input).input = input := rfl
  show concatValues ((runLexer (input.length + 1) (lexInit input)).tokens ++ _) = input
  rw [concatValues_append, hc, hin, hin']
  rw [hin, hin'] at hcomp
  rw [List.take_of_length_le hcomp]
  simp [concatValues]

/-- C1 (witness): a concrete error-free input round-trips. -/
theorem tokenize_roundtrip_witness :
    (Tokenize (str "ls file.txt")).2 = [] ∧
      concatValues (Tokenize (str "ls file.txt")).1 = str "ls file.txt" :=
  ⟨by decide, tokenize_roundtrip (str "ls file.txt") (by decide)⟩

/-! ## Claim C7: termination and the EOF token -/

/-- C7: for every input `Tokenize` terminates — its scanning loop
provably reaches the end of the input within `input.length + 1`
iterations (third conjunct) — and the returned token list ends with an
EOF token, the only EOF token in the list. -/
theorem tokenize_last_eof (input : List Char) :
    (∃ t, (Tokenize input).1.getLast? = some t ∧ t.type = .EOF) ∧
    (Tokenize input).1.countP (fun t => t.type == .EOF) = 1 ∧
    (runLexer (input.length + 1) (lexInit input)).input.length ≤
      (runLexer (input.length + 1) (lexInit input)).pos := by
  have hnoeof := runLexer_no_eof (input.length + 1) (lexInit input) (by simp [lexInit])
  refine ⟨⟨⟨.EOF, [], ((runLexer (input.length + 1) (lexInit input)).pos : Int) - 0,
      (runLexer (input.length + 1) (lexInit input)).line⟩, ?_, rfl⟩, ?_, ?_⟩
  · exact List.getLast?_concat _
  · show ((runLexer (input.length + 1) (lexInit input)).tokens ++ [_]).countP _ = 1
    rw [List.countP_append]
    have h0 : (runLexer (input.length + 1) (lexInit input)).tokens.countP
        (fun t => t.type == .EOF) = 0 := by
      rw [List.countP_eq_zero]
      intro t ht
      simpa using hnoeof t ht
    rw [h0]
    rfl
  · exact runLexer_completes (input.length + 1) (lexInit input) (by simp [lexInit])

/-! ## Lemmas about the virtual filesystem -/

theorem foldl_inv {α β : Type} (g : β → α → β) (P : β → Prop)
    (hg : ∀ acc a, P acc → P (g acc a)) : ∀ (l : List α) (acc : β), P acc → P (l.foldl g acc) := by
  intro l
  induction l with
  | nil => exact fun acc h => h
  | cons a rest ih => exact fun acc h => ih _ (hg acc a h)

theorem head?_append_of_head (a b : List Char) (c : Char) (h : a.head? = some c) :
    (a ++ b).head? = some c := by
  cases a with
  | nil => simp at h
  | cons x xs => simpa using h

theorem goClean_abs (p : List Char) (h : p.head? = some '/') :
    (goClean p).head? = some '/' := by
  have hne : ¬ p = [] := by
    cases p
    · simp at h
    · simp
  simp [goClean, hne, h]

theorem upToLastSlash_abs (p : List Char) (h : p.head? = some '/') :
    (upToLastSlash p).head? = some '/' := by
  cases p with
  | nil => simp at h
  | cons c rest =>
    have hc : c = '/' := by simpa using h
    subst hc
    simp only [upToLastSlash]
    rcases h2 : upToLastSlash rest with _ | ⟨d, r⟩ <;> simp

theorem goDir_abs (p : List Char) (h : p.head? = some '/') :
    (goDir p).head? = some '/' :=
  goClean_abs _ (upToLastSlash_abs p h)

/-- `resolvePath` always returns a path that starts with `/`, provided
the current directory does. -/
theorem resolvePath_abs (fs : FileSystemState) (h : fs.currentDirectory.head? = some '/')
    (path : List Char) : (resolvePath fs path).head? = some '/' := by
  unfold resolvePath
  split_ifs with h1 h2 h3 h4 h5
  · exact goClean_abs _ h1
  · rfl
  · exact goClean_abs _ rfl
  · exact h
  · exact goDir_abs _ h
  · refine goClean_abs _ ?_
    exact head?_append_of_head _ _ _ h

theorem processMkdir_currentDirectory (cmd : CommandAST) (fs : FileSystemState) :
    (processMkdir cmd fs).1.currentDirectory = fs.currentDirectory := by
  unfold processMkdir
  split_ifs
  · rfl
  · refine foldl_inv _ (fun (acc : FileSystemState × List FileSystemError) => acc.1.currentDirectory = fs.currentDirectory) ?_ _ _ rfl
    rintro ⟨fs1, errs1⟩ arg hp
    dsimp only at hp ⊢
    split_ifs <;> exact hp

theorem processRmdir_currentDirectory (cmd : CommandAST) (fs : FileSystemState) :
    (processRmdir cmd fs).1.currentDirectory = fs.currentDirectory := by
  unfold processRmdir
  split_ifs
  · rfl
  · refine foldl_inv _ (fun (acc : FileSystemState × List FileSystemError) => acc.1.currentDirectory = fs.currentDirectory) ?_ _ _ rfl
    rintro ⟨fs1, errs1⟩ arg hp
    dsimp only at hp ⊢
    split_ifs <;> exact hp

theorem processTouch_currentDirectory (cmd : CommandAST) (fs : FileSystemState) :
    (processTouch cmd fs).1.currentDirectory = fs.currentDirectory := by
  unfold processTouch
  split_ifs
  · rfl
  · refine foldl_inv _ (fun (acc : FileSystemState × List FileSystemError) => acc.1.currentDirectory = fs.currentDirectory) ?_ _ _ rfl
    rintro ⟨fs1, errs1⟩ arg hp
    dsimp only at hp ⊢
    split_ifs <;> exact hp

theorem processRm_currentDirectory (cmd : CommandAST) (fs : FileSystemState) :
    (processRm cmd fs).1.currentDirectory = fs.currentDirectory := by
  unfold processRm
  split_ifs
  · rfl
  · refine foldl_inv _ (fun (acc : FileSystemState × List FileSystemError) => acc.1.currentDirectory = fs.currentDirectory) ?_ _ _ rfl
    rintro ⟨fs1, errs1⟩ arg hp
    dsimp only at hp ⊢
    split_ifs <;> exact hp

theorem processCp_currentDirectory (cmd : CommandAST) (fs : FileSystemState) :
    (processCp cmd fs).1.currentDirectory = fs.currentDirectory := by
  unfold processCp
  rcases cmd.arguments with _ | ⟨s1, _ | ⟨d1, rest⟩⟩ <;> dsimp only <;> split_ifs <;> rfl

theorem processMv_currentDirectory (cmd : CommandAST) (fs : FileSystemState) :
    (processMv cmd fs).1.currentDirectory = fs.currentDirectory := by
  unfold processMv
  rcases cmd.arguments with _ | ⟨s1, _ | ⟨d1, rest⟩⟩ <;> dsimp only <;> split_ifs <;> rfl

theorem processFileRead_currentDirectory (cmd : CommandAST) (fs : FileSystemState) :
    (processFileRead cmd fs).1.currentDirectory = fs.currentDirectory := by
  unfold processFileRead
  split_ifs <;> rfl

/-- Every command preserves absoluteness of the current directory: only
`cd` reassigns it, and only to a `resolvePath` result. -/
theorem ProcessCommand_abs (cmd : CommandAST) (fs : FileSystemState)
    (h : fs.currentDirectory.head? = some '/') :
    ((ProcessCommand cmd fs).1.currentDirectory).head? = some '/' := by
  unfold ProcessCommand
  rcases hk : fsCmdKind cmd.command with _ | _ | _ | _ | _ | _ | _ | _ | _ <;> dsimp only
  · rw [processMkdir_currentDirectory]; exact h
  · unfold processCD
    dsimp only
    split_ifs
    · exact h
    · exact resolvePath_abs fs h _
  · rw [processRmdir_currentDirectory]; exact h
  · rw [processTouch_currentDirectory]; exact h
  · rw [processRm_currentDirectory]; exact h
  · rw [processCp_currentDirectory]; exact h
  · rw [processMv_currentDirectory]; exact h
  · rw [processFileRead_currentDirectory]; exact h
  · exact h

/-! ## Claim C10: the current directory is always an absolute path -/

/-- C10: after replaying any command list from a fresh
`NewFileSystemState`, the current directory begins with `/`: it starts
as `/home/user` and is only ever reassigned to `resolvePath` outputs,
which are absolute whenever the current directory is. -/
theorem replay_currentDirectory_absolute (cmds : List CommandAST) :
    ((replayCommands cmds NewFileSystemState).1.currentDirectory).head? = some '/' := by
  unfold replayCommands
  refine foldl_inv _ (fun (acc : FileSystemState × List FileSystemError) => (acc.1.currentDirectory).head? = some '/') ?_ _ _ rfl
  rintro ⟨fs1, errs1⟩ cmd hp
  dsimp only at hp ⊢
  exact ProcessCommand_abs cmd fs1 hp

/-! ## Claim C2: protection of builtin directories -/

/-- C2 (counterexample): builtin directories are not protected against
every deletion path.  Replaying the real pipeline output of
`mv /tmp /home/user/x` removes the builtin `/tmp` from the directory set
with no error at all (no `system_directory` refusal), and a recursive
`rm` on `/tmp` likewise deletes it silently. -/
theorem builtin_protection_cex :
    (str "/tmp") ∈ NewFileSystemState.initialDirs ∧
    memPath (str "/tmp")
      ((replayCommands (pipelineCommands (str "mv /tmp /home/user/x"))
        NewFileSystemState).1.directories) = false ∧
    (replayCommands (pipelineCommands (str "mv /tmp /home/user/x")) NewFileSystemState).2 = [] ∧
    memPath (str "/tmp")
      ((ProcessCommand ⟨str "rm", [str "/tmp"], [(str "r", str "true")], [], [], 1,
        str "rm -r /tmp"⟩ NewFileSystemState).1.directories) = false := by
  decide

/-- C2 (amended): only `rmdir` protects the builtin directories: a
builtin directory present in the directory set survives any `rmdir`
command (the attempt is refused with a `system_directory` error and the
deletion is not applied), while `rm` with a recursive flag and `mv` with
a builtin source do remove builtin directories. -/
theorem rmdir_preserves_builtins (fs : FileSystemState) (cmd : CommandAST)
    (h : cmd.command = str "rmdir") (d : List Char)
    (hd : d ∈ fs.initialDirs) (hm : d ∈ fs.directories) :
    d ∈ (ProcessCommand cmd fs).1.directories ∧
    (ProcessCommand cmd fs).1.initialDirs = fs.initialDirs := by
  have hk : fsCmdKind cmd.command = .rmdir := by rw [h]; decide
  have hpc : ProcessCommand cmd fs = processRmdir cmd fs := by
    unfold ProcessCommand
    rw [hk]
  rw [hpc]
  unfold processRmdir
  split_ifs
  · exact ⟨hm, rfl⟩
  · refine foldl_inv _ (fun (acc : FileSystemState × List FileSystemError) =>
      d ∈ acc.1.directories ∧ acc.1.initialDirs = fs.initialDirs) ?_ _ _ ⟨hm, rfl⟩
    rintro ⟨fs1, errs1⟩ arg ⟨hp1, hp2⟩
    dsimp only at hp1 hp2 ⊢
    split_ifs with h1 h2
    · exact ⟨hp1, hp2⟩
    · exact ⟨hp1, hp2⟩
    · refine ⟨?_, hp2⟩
      have hdne : ¬ d = resolvePath fs1 arg := by
        intro hcontra
        rw [← hp2] at hd
        rw [hcontra] at hd
        have hmem2 : memPath (resolvePath fs1 arg) fs1.initialDirs = true := by
          simpa [memPath, List.contains] using List.elem_iff.mpr hd
        exact h2 hmem2
      simp only [removePath, List.mem_filter]
      refine ⟨hp1, ?_⟩
      simpa using hdne

/-- C2 (witness): `rmdir /tmp` on a fresh state leaves the builtin
`/tmp` in the directory set. -/
theorem rmdir_preserves_builtins_witness :
    (str "/tmp") ∈ (ProcessCommand ⟨str "rmdir", [str "/tmp"], [], [], [], 1, str "rmdir /tmp"⟩
      NewFileSystemState).1.directories :=
  (rmdir_preserves_builtins NewFileSystemState
    ⟨str "rmdir", [str "/tmp"], [], [], [], 1, str "rmdir /tmp"⟩ rfl
    (str "/tmp") (by decide) (by decide)).1

/-! ## Claim C8: the `cd` contract -/

/-- The target directory of a `cd` command: the home directory when no
argument is given, else the first argument. -/
def cdTarget (cmd : CommandAST) : List Char :=
  match cmd.arguments with
  | [] => str "/home/user"
  | t :: _ => t

/-- C8: for every filesystem state, a `cd` command resolves its target
(defaulting to the home directory); if the resolved target is a known
directory the current directory is updated and no error is emitted,
otherwise the current directory is left unchanged and exactly one
`directory_not_found` error carrying a `mkdir` missing-dependency
remediation is emitted. -/
theorem processCD_spec (fs : FileSystemState) (cmd : CommandAST) (h : cmd.command = str "cd") :
    (memPath (resolvePath fs (cdTarget cmd)) fs.directories = true →
      (ProcessCommand cmd fs).1.currentDirectory = resolvePath fs (cdTarget cmd) ∧
      (ProcessCommand cmd fs).2 = []) ∧
    (memPath (resolvePath fs (cdTarget cmd)) fs.directories = false →
      (ProcessCommand cmd fs).1.currentDirectory = fs.currentDirectory ∧
      (ProcessCommand cmd fs).2 = [⟨str "directory_not_found", cmd.raw, cmd.line,
        resolvePath fs (cdTarget cmd),
        str "No se puede cambiar al directorio '" ++ cdTarget cmd ++
          str "': directorio no encontrado",
        str "Primero cree el directorio con: mkdir " ++ cdTarget cmd,
        some ⟨str "directory", cdTarget cmd, str "mkdir " ++ cdTarget cmd⟩⟩]) := by
  have hk : fsCmdKind cmd.command = .cd := by rw [h]; decide
  have hpc : ProcessCommand cmd fs = processCD cmd fs := by
    unfold ProcessCommand
    rw [hk]
  rw [hpc]
  unfold processCD
  rcases harg : cmd.arguments with _ | ⟨t, args⟩ <;>
    simp only [cdTarget, harg] <;>
    constructor <;>
    intro hmem <;>
    simp [hmem]

/-- C8 (witness): on a fresh state, `cd foo` reports `directory_not_found`
with the `mkdir foo` dependency and leaves the current directory at
`/home/user`, while `cd /etc` succeeds silently. -/
theorem processCD_spec_witness :
    ((ProcessCommand ⟨str "cd", [str "foo"], [], [], [], 1, str "cd foo"⟩
        NewFileSystemState).1.currentDirectory = str "/home/user" ∧
      (ProcessCommand ⟨str "cd", [str "foo"], [], [], [], 1, str "cd foo"⟩
        NewFileSystemState).2 = [⟨str "directory_not_found", str "cd foo", 1,
          str "/home/user/foo",
          str "No se puede cambiar al directorio '" ++ str "foo" ++
            str "': directorio no encontrado",
          str "Primero cree el directorio con: mkdir " ++ str "foo",
          some ⟨str "directory", str "foo", str "mkdir " ++ str "foo"⟩⟩]) ∧
    ((ProcessCommand ⟨str "cd", [str "/etc"], [], [], [], 1, str "cd /etc"⟩
        NewFileSystemState).1.currentDirectory = resolvePath NewFileSystemState (str "/etc") ∧
      (ProcessCommand ⟨str "cd", [str "/etc"], [], [], [], 1, str "cd /etc"⟩
        NewFileSystemState).2 = []) := by
  constructor
  · have h := (processCD_spec NewFileSystemState
      ⟨str "cd", [str "foo"], [], [], [], 1, str "cd foo"⟩ rfl).2 (by decide)
    exact ⟨h.1, by rw [h.2]; decide⟩
  · exact (processCD_spec NewFileSystemState
      ⟨str "cd", [str "/etc"], [], [], [], 1, str "cd /etc"⟩ rfl).1 (by decide)

/-! ## Claim C5: the `cat missing.txt` scenario -/

/-- C5: the input `cat missing.txt` parses to the single command
`cat missing.txt`; replaying it on a fresh filesystem state yields
exactly one `file_not_found` error whose missing dependency names the
file and requires `touch missing.txt`; and the analyzer's threat list
for this input is exactly one HIGH `filesystem_error` threat promoting
that error. -/
theorem cat_missing_scenario :
    (pipelineCommands (str "cat missing.txt")).map CommandAST.command = [str "cat"] ∧
    (pipelineCommands (str "cat missing.txt")).map CommandAST.arguments =
      [[str "missing.txt"]] ∧
    (replayCommands (pipelineCommands (str "cat missing.txt")) NewFileSystemState).2 =
      [⟨str "file_not_found", str "cat missing.txt", 1, str "/home/user/missing.txt",
        str "No se puede leer 'missing.txt': archivo no encontrado",
        str "Verifique que el archivo exista o créelo con: touch missing.txt",
        some ⟨str "file", str "missing.txt", str "touch missing.txt"⟩⟩] ∧
    (Analyze (pipelineCommands (str "cat missing.txt"))).1 =
      [⟨str "filesystem_error", .HIGH,
        str "No se puede leer 'missing.txt': archivo no encontrado",
        str "cat missing.txt", 1, generateSuggestions (str "filesystem_error")⟩] := by
  decide

/-! ## Claim C3: the download-then-chmod scenario -/

/-- C3: the spec promises a `download_execute_sequence` anomaly for the
input `wget http://x.com/script.sh\nchmod +x script.sh`, but the full
pipeline emits none: the lexer drops `:` and `+` as unrecognized
characters (second conjunct), so the chmod command parses with an empty
flag map (third conjunct) and `hasFlag(next, "x")` fails in
`detectAnomalies`, leaving the anomaly list empty (first conjunct). -/
theorem wget_chmod_scenario_fails :
    (Analyze (pipelineCommands
      (str "wget http://x.com/script.sh\nchmod +x script.sh"))).2.2 = [] ∧
    (Tokenize (str "wget http://x.com/script.sh\nchmod +x script.sh")).2.map
      LexicalError.message =
      ["Carácter no reconocido: :", "Carácter no reconocido: +"] ∧
    (pipelineCommands (str "wget http://x.com/script.sh\nchmod +x script.sh")).map
      CommandAST.flags = [[], []] ∧
    (pipelineCommands (str "wget http://x.com/script.sh\nchmod +x script.sh")).map
      CommandAST.command = [str "wget", str "chmod"] := by
  decide

/-! ## Claim C9: the `sl` spelling suggestion -/

/-- C9: `CheckSpelling "sl"` returns the suggestion `ls` with confidence
exactly `0.95` (`19/20`) and the common-typo reason, via the exact
typo-table hit (third conjunct), which takes priority over the
edit-distance search; `sl` is not a known command (second conjunct). -/
theorem checkSpelling_sl :
    CheckSpelling (str "sl") =
      some ⟨str "sl", str "ls", 19 / 20, str "Error de tipeo común", []⟩ ∧
    knownCommands.contains (str "sl") = false ∧
    (commonTypos.find? (fun p => p.1 == str "sl")).map (·.2) = some (str "ls") :=
  ⟨rfl, by decide, by decide⟩

/-! ## Claim C6: literal `rm -rf /` is always critical -/

theorem anySuffix_append (p : List Char → Bool) (pre l : List Char) (h : p l = true) :
    anySuffix p (pre ++ l) = true := by
  induction pre with
  | nil =>
    cases l with
    | nil => simpa [anySuffix] using h
    | cons c rest => simp only [List.nil_append, anySuffix, h, Bool.true_or]
  | cons c pre ih => simp [anySuffix, ih]

/-- Any raw text containing the literal `rm -rf /` matches the critical
pattern `rm\s+-rf\s+/`. -/
theorem patRmRf_of_parts (pre post raw : List Char)
    (h : raw = pre ++ str "rm -rf /" ++ post) : patRmRf raw = true := by
  subst h
  unfold patRmRf
  rw [show str "rm -rf /" = ['r', 'm', ' ', '-', 'r', 'f', ' ', '/'] from by decide,
    List.append_assoc]
  apply anySuffix_append
  simp [rmRfAt, skipWs1, wsRe, rmRfDashRf, rmRfSlash]

theorem find?_isSome_of_mem {α : Type} (p : α → Bool) (l : List α) (x : α)
    (hx : x ∈ l) (hp : p x = true) : ∃ y, l.find? p = some y := by
  induction l with
  | nil => cases hx
  | cons a rest ih =>
    by_cases hpa : p a = true
    · exact ⟨a, by simp [List.find?_cons, hpa]⟩
    · rcases List.mem_cons.mp hx with rfl | hx2
      · exact absurd hp hpa
      · obtain ⟨y, hy⟩ := ih hx2
        refine ⟨y, ?_⟩
        simp only [List.find?_cons]
        rw [Bool.eq_false_iff.mpr hpa] at *
        simpa [hpa] using hy

theorem mem_foldl_append_init {α β : Type} (f : α → List β) (b : β) :
    ∀ (l : List α) (acc : List β), b ∈ acc →
      b ∈ l.foldl (fun acc a => acc ++ f a) acc := by
  intro l
  induction l with
  | nil => exact fun acc h => h
  | cons a rest ih => exact fun acc h => ih _ (List.mem_append_left _ h)

theorem mem_foldl_append {α β : Type} (f : α → List β) (l : List α) (x : α) (hx : x ∈ l)
    (b : β) (hb : b ∈ f x) : ∀ acc, b ∈ l.foldl (fun acc a => acc ++ f a) acc := by
  induction l with
  | nil => cases hx
  | cons a rest ih =>
    intro acc
    rcases List.mem_cons.mp hx with rfl | hx2
    · exact mem_foldl_append_init f b rest _ (List.mem_append_right _ hb)
    · exact ih hx2 _

/-- C6: every command whose raw text contains the literal `rm -rf /`
(given as `raw = pre ++ "rm -rf /" ++ post`) receives a CRITICAL-level
`critical_command` threat from `Analyze`, whatever the other commands in
the list are: the raw text matches the `rm\s+-rf\s+/` entry of the
critical-pattern table, so `checkCriticalCommands`' first-match loop
fires at CRITICAL level for some matching pattern. -/
theorem rmrf_always_critical (cmds : List CommandAST) (cmd : CommandAST) (hmem : cmd ∈ cmds)
    (pre post : List Char) (hraw : cmd.raw = pre ++ str "rm -rf /" ++ post) :
    ∃ t, t ∈ (Analyze cmds).1 ∧ t.level = .CRITICAL ∧ t.command = cmd.raw ∧
      t.type = str "critical_command" := by
  have hp : patRmRf cmd.raw = true := patRmRf_of_parts pre post _ hraw
  obtain ⟨pd, hpd⟩ := find?_isSome_of_mem (fun pd => pd.1 cmd.raw) criticalPatterns
    (patRmRf, str "Eliminación recursiva del sistema de archivos raíz")
    (by simp [criticalPatterns]) (by simpa using hp)
  have hcc : checkCriticalCommands criticalPatterns cmd =
      [mkThreat .CRITICAL (str "critical_command") pd.2 cmd] := by
    unfold checkCriticalCommands
    rw [hpd]
  refine ⟨mkThreat .CRITICAL (str "critical_command") pd.2 cmd, ?_, rfl, rfl, rfl⟩
  show _ ∈ (cmds.foldl
    (fun acc c => acc ++ analyzeCommand criticalPatterns privilegePatterns networkPatterns c)
    []) ++ fileSystemThreats cmds
  apply List.mem_append_left
  refine mem_foldl_append _ cmds cmd hmem _ ?_ []
  unfold analyzeCommand
  rw [hcc]
  simp

/-- C6 (witness): the single command `echo "rm -rf /"`, whose raw text
contains the literal through a quoted string, gets a CRITICAL threat. -/
theorem rmrf_always_critical_witness :
    ∃ t, t ∈ (Analyze [⟨str "echo", [str "\"rm -rf /\""], [], [], [], 1,
        str "echo \"rm -rf /\""⟩]).1 ∧
      t.level = .CRITICAL ∧ t.command = str "echo \"rm -rf /\"" ∧
      t.type = str "critical_command" :=
  rmrf_always_critical
    [⟨str "echo", [str "\"rm -rf /\""], [], [], [], 1, str "echo \"rm -rf /\""⟩]
    ⟨str "echo", [str "\"rm -rf /\""], [], [], [], 1, str "echo \"rm -rf /\""⟩
    (List.mem_singleton.mpr rfl) (str "echo \"") (str "\"") (by decide)

/-! ## Claim C4: determinism of the analysis

Go ranges over the three pattern tables in unspecified (randomized) map
order, so two executions of `Analyze` are two instances of
`AnalyzeOrdered`, each with some permutation of the source-listing
tables.  When a raw text matches at most one pattern of each table, the
iteration order is invisible; when it matches two, it is not. -/

theorem find?_eq_head_filter {α : Type} (p : α → Bool) : ∀ l : List α,
    l.find? p = (l.filter p).head? := by
  intro l
  induction l with
  | nil => rfl
  | cons a rest ih =>
    cases hpa : p a with
    | true =>
      rw [List.find?_cons_of_pos _ hpa, List.filter_cons_of_pos hpa]
      rfl
    | false =>
      rw [List.find?_cons_of_neg _ (by simp [hpa]), List.filter_cons_of_neg (by simp [hpa])]
      exact ih

theorem filter_eq_of_perm_count_le_one {α : Type} (p : α → Bool) (l l' : List α)
    (hperm : l.Perm l') (hc : l.countP p ≤ 1) : l.filter p = l'.filter p := by
  have hpf : (l.filter p).Perm (l'.filter p) := hperm.filter p
  have hlen : (l.filter p).length ≤ 1 := by
    rw [← List.countP_eq_length_filter]
    exact hc
  rcases hf : l.filter p with _ | ⟨a, rest⟩
  · rw [hf] at hpf
    exact (List.perm_nil.mp hpf.symm).symm
  · rw [hf] at hpf hlen
    rcases rest with _ | ⟨b, rest2⟩
    · exact (List.singleton_perm.mp hpf)
    · simp at hlen

theorem find?_eq_of_perm_count_le_one {α : Type} (p : α → Bool) (l l' : List α)
    (hperm : l.Perm l') (hc : l.countP p ≤ 1) : l.find? p = l'.find? p := by
  rw [find?_eq_head_filter, find?_eq_head_filter,
    filter_eq_of_perm_count_le_one p l l' hperm hc]

theorem foldl_filter_map {α β : Type} (p : α → Bool) (g : α → β) : ∀ (l : List α)
    (acc : List β),
    l.foldl (fun acc a => if p a then acc ++ [g a] else acc) acc =
      acc ++ (l.filter p).map g := by
  intro l
  induction l with
  | nil => simp
  | cons a rest ih =>
    intro acc
    cases hpa : p a with
    | true => simp [List.filter_cons, hpa, ih]
    | false => simp [List.filter_cons, hpa, ih]

theorem foldl_append_congr {α β : Type} (f g : α → List β) (l : List α)
    (h : ∀ x ∈ l, f x = g x) : ∀ acc : List β,
    l.foldl (fun acc a => acc ++ f a) acc = l.foldl (fun acc a => acc ++ g a) acc := by
  induction l with
  | nil => exact fun acc => rfl
  | cons a rest ih =>
    intro acc
    rw [List.foldl_cons, List.foldl_cons, h a (List.mem_cons_self a rest),
      ih (fun x hx => h x (List.mem_cons_of_mem a hx))]

theorem checkCriticalCommands_perm (critOrder : List PatternEntry)
    (hc : critOrder.Perm criticalPatterns) (cmd : CommandAST)
    (h1 : criticalPatterns.countP (fun pd => pd.1 cmd.raw) ≤ 1) :
    checkCriticalCommands critOrder cmd = checkCriticalCommands criticalPatterns cmd := by
  unfold checkCriticalCommands
  rw [find?_eq_of_perm_count_le_one (fun pd => pd.1 cmd.raw) critOrder criticalPatterns hc
    (by rw [hc.countP_eq]; exact h1)]

theorem checkPrivilegeEscalation_perm (privOrder : List PatternEntry)
    (hp : privOrder.Perm privilegePatterns) (cmd : CommandAST)
    (h2 : privilegePatterns.countP (fun pd => pd.1 cmd.raw) ≤ 1) :
    checkPrivilegeEscalation privOrder cmd = checkPrivilegeEscalation privilegePatterns cmd := by
  unfold checkPrivilegeEscalation
  rw [find?_eq_of_perm_count_le_one (fun pd => pd.1 cmd.raw) privOrder privilegePatterns hp
    (by rw [hp.countP_eq]; exact h2)]

theorem checkNetworkActivity_perm (netOrder : List PatternEntry)
    (hn : netOrder.Perm networkPatterns) (cmd : CommandAST)
    (h3 : networkPatterns.countP (fun pd => pd.1 cmd.raw) ≤ 1) :
    checkNetworkActivity netOrder cmd = checkNetworkActivity networkPatterns cmd := by
  unfold checkNetworkActivity
  rw [foldl_filter_map (fun pd => pd.1 cmd.raw)
      (fun pd => mkThreat .MEDIUM (str "suspicious_network") pd.2 cmd) netOrder [],
    foldl_filter_map (fun pd => pd.1 cmd.raw)
      (fun pd => mkThreat .MEDIUM (str "suspicious_network") pd.2 cmd) networkPatterns [],
    filter_eq_of_perm_count_le_one (fun pd => pd.1 cmd.raw) netOrder networkPatterns hn
      (by rw [hn.countP_eq]; exact h3)]

/-- C4 (amended): the analysis is a pure function of the command list
and of the iteration orders Go's runtime picks for the three pattern
tables; whenever each command's raw text matches at most one pattern in
each table, those orders are invisible, so two runs on fresh analyzers
yield identical threat, pattern and anomaly lists.  (Only when a raw
text matches several patterns of one table can two runs differ, in the
reported description — see the counterexample.) -/
theorem analyze_order_independent (critOrder privOrder netOrder : List PatternEntry)
    (hc : critOrder.Perm criticalPatterns) (hp : privOrder.Perm privilegePatterns)
    (hn : netOrder.Perm networkPatterns) (cmds : List CommandAST)
    (h1 : ∀ cmd ∈ cmds, criticalPatterns.countP (fun pd => pd.1 cmd.raw) ≤ 1)
    (h2 : ∀ cmd ∈ cmds, privilegePatterns.countP (fun pd => pd.1 cmd.raw) ≤ 1)
    (h3 : ∀ cmd ∈ cmds, networkPatterns.countP (fun pd => pd.1 cmd.raw) ≤ 1) :
    AnalyzeOrdered critOrder privOrder netOrder cmds = Analyze cmds := by
  unfold Analyze AnalyzeOrdered
  have hcong : ∀ cmd ∈ cmds, analyzeCommand critOrder privOrder netOrder cmd =
      analyzeCommand criticalPatterns privilegePatterns networkPatterns cmd := by
    intro cmd hm
    unfold analyzeCommand
    rw [checkCriticalCommands_perm critOrder hc cmd (h1 cmd hm),
      checkPrivilegeEscalation_perm privOrder hp cmd (h2 cmd hm),
      checkNetworkActivity_perm netOrder hn cmd (h3 cmd hm)]
  rw [foldl_append_congr _ _ cmds hcong]

/-- C4 (witness): with any permuted table orders, the analysis of
`mkfs` (which matches exactly one critical pattern and no others)
coincides with the source-listing-order analysis. -/
theorem analyze_order_independent_witness :
    AnalyzeOrdered criticalPatterns.reverse privilegePatterns.reverse networkPatterns.reverse
      [⟨str "mkfs", [], [], [], [], 1, str "mkfs"⟩] =
    Analyze [⟨str "mkfs", [], [], [], [], 1, str "mkfs"⟩] :=
  analyze_order_independent criticalPatterns.reverse privilegePatterns.reverse
    networkPatterns.reverse (List.reverse_perm _) (List.reverse_perm _) (List.reverse_perm _)
    [⟨str "mkfs", [], [], [], [], 1, str "mkfs"⟩] (by decide) (by decide) (by decide)

/-- C4 (counterexample): two admissible executions of `Analyze` (two
iteration orders of the critical-pattern table, both permutations of
the same Go map) produce different threat lists on the parsed input
`echo "mkfs fdisk -l"`, whose raw text matches both the `mkfs` and the
`fdisk.*-l` patterns: the reported description depends on which map
order the Go runtime happens to pick, so two runs need not be
identical. -/
theorem analyze_determinism_cex :
    ¬ AnalyzeOrdered criticalPatterns.reverse privilegePatterns networkPatterns
        (pipelineCommands (str "echo \"mkfs fdisk -l\"")) =
      AnalyzeOrdered criticalPatterns privilegePatterns networkPatterns
        (pipelineCommands (str "echo \"mkfs fdisk -l\"")) := by
  decide

end TerminalAnalyzer
